import Mathlib

/-!
# Cinematic camera store (`src/game/Cinematics/M2Stores.cpp`) and `CheckUnique`

A shallow embedding of `TranslateLocation`, `readCamera` and `LoadM2Cameras`, and of
`CharacterDatabaseCleaner::CheckUnique` (`src/game/Tools/CharacterDatabaseCleaner.cpp`), and
theorems about them.

Conventions of the embedding.

* `float` is a type parameter `F` together with a record `FloatOps F` of the operations the
  source applies to floats.  Statements proved for every `ops` hold for every arithmetic;
  statements about the values of floats are proved for every arithmetic with the properties
  `FloatLaws`, which binary32 with rounding to nearest has.  `ieeeOps` is exact real
  arithmetic on finite values together with the IEEE 754 exceptional values (infinities,
  NaN); it does not round and is used to evaluate the code at inputs where binary32 computes
  the same values.  `roundedOps` is `ieeeOps` with the conversion `float(n)` rounded as
  binary32 rounds it.  `realOps` is the arithmetic of the real numbers.
* `uint32` values are natural numbers; where the source can wrap (`currPos +=`, the timestamp
  differences, the cast of the file size) the reduction modulo `2^32` is written out.
  `size_t` is 64 bits wide, so the sum of a `uint32` and a `sizeof` constant in a bounds
  check is the exact sum.
* The file buffer is seen through `Memory`: what a typed read at a byte offset from the
  start of the buffer yields.  Offsets at or beyond `buffSize` lie outside the buffer;
  `readCamera` records every offset it dereferences in `ReadResult.reads`.
* The global `sFlyByCameraStore` is passed in and returned; the file system is a function
  from file names to the files that open; error lines and executed statements are returned
  as lists.
-/

namespace M2Stores

/-! ## Data model -/

/-- The float operations used by the source, over a carrier `F` standing for `float`. -/
structure FloatOps (F : Type) where
  add : F → F → F
  sub : F → F → F
  mul : F → F → F
  div : F → F → F
  sqrt : F → F
  sin : F → F
  cos : F → F
  atan2 : F → F → F
  /-- The test `v < 0`. -/
  ltZero : F → Bool
  /-- Conversion of an unsigned integer to float, `float(n)`. -/
  ofNat : Nat → F
  /-- The literal `0.0f`. -/
  zero : F
  /-- The constant `float(M_PI)`. -/
  pi : F

/-- `G3D::Vector3`. -/
structure Vector3 (F : Type) where
  x : F
  y : F
  z : F

/-- `G3D::Vector4`. -/
structure Vector4 (F : Type) where
  x : F
  y : F
  z : F
  w : F

/-- The `Origin` member of a `CinematicCameraEntry`. -/
structure DBCPosition3D (F : Type) where
  X : F
  Y : F
  Z : F

/-- The fields of a `CinematicCameraEntry` (a placement record) that the source reads. -/
structure CinematicCameraEntry (F : Type) where
  ID : Nat
  Model : String
  Origin : DBCPosition3D F
  OriginFacing : F

/-- `FlyByCamera`: a waypoint; `locations.w` is the facing. -/
structure FlyByCamera (F : Type) where
  timeStamp : Nat
  locations : Vector4 F

/-- `FlyByCameraCollection`, a `std::vector<FlyByCamera>`. -/
abbrev FlyByCameraCollection (F : Type) := List (FlyByCamera F)

/-- `sFlyByCameraStore`, a `std::unordered_map<uint32, FlyByCameraCollection>`. -/
abbrev Store (F : Type) := Nat → Option (FlyByCameraCollection F)

/-- `M2Array`: an array descriptor `(count, byte offset)`. -/
structure M2Array where
  number : Nat
  offset_elements : Nat

/-- The two array descriptors of an `M2Track` that `readCamera` reads. -/
structure M2Track where
  timestamps : M2Array
  values : M2Array

/-- The fields of `M2Camera` that `readCamera` reads. -/
structure M2Camera (F : Type) where
  positions : M2Track
  position_base : Vector3 F
  target_positions : M2Track
  target_position_base : Vector3 F

/-- Modelled from the spec: `sizeof(M2Array)`; `M2Structure.h` is not among the sources.
The spec gives the array descriptor as `(count: u32, byteOffset: u32)`, eight bytes. -/
def sizeofM2Array : Nat := 8

/-- Modelled from the spec: a default-constructed `FlyByCamera` (`M2Stores.h` and the
`G3D::Vector4` constructor are not among the sources).  The spec has the facing of a
waypoint be `0` when nothing assigns it; the other fields are assigned before use. -/
def FlyByCamera.default {F : Type} (ops : FloatOps F) : FlyByCamera F :=
  ⟨0, ⟨ops.zero, ops.zero, ops.zero, ops.zero⟩⟩

/-- Typed views of memory at a byte offset from the start of the file buffer:
`u32 a` is what `*reinterpret_cast<uint32 const*>(buffer + a)` yields and `f32 a` what a
`float` read at `buffer + a` yields. -/
structure Memory (F : Type) where
  u32 : Nat → Nat
  f32 : Nat → F

/-- A `uint32` read at byte offset `a`. -/
def Memory.readU32 {F : Type} (mem : Memory F) (a : Nat) : Nat :=
  mem.u32 a % 4294967296

/-- The member `p0` of the `M2SplineKey<G3D::Vector3>` at byte offset `a`: three floats. -/
def Memory.readP0 {F : Type} (mem : Memory F) (a : Nat) : Vector3 F :=
  ⟨mem.f32 a, mem.f32 (a + 4), mem.f32 (a + 8)⟩

/-- A dereference made by `readCamera`, with the byte offset it starts at. -/
inductive Access where
  /-- A `uint32` timestamp read (4 bytes). -/
  | timestamp (off : Nat)
  /-- A spline key read (`sizeof(M2SplineKey<G3D::Vector3>)` bytes, of which `p0` is used). -/
  | key (off : Nat)
  deriving DecidableEq, Repr

/-- The byte range of an access lies inside a buffer of `buffSize` bytes; `K` is
`sizeof(M2SplineKey<G3D::Vector3>)`. -/
def Access.inBounds (K buffSize : Nat) : Access → Prop
  | Access.timestamp off => off + 4 ≤ buffSize
  | Access.key off => off + K ≤ buffSize

/-- Subtraction of `uint32` values, for operands below `2^32`. -/
def subU32 (a b : Nat) : Nat := (a + 4294967296 - b) % 4294967296

/-! ## `TranslateLocation` -/

/-- `TranslateLocation`: the world position of a spline value. -/
def TranslateLocation {F : Type} (ops : FloatOps F) (DBCPosition : Vector4 F)
    (basePosition splineVector : Vector3 F) : Vector3 F :=
  let x := ops.add basePosition.x splineVector.x
  let y := ops.add basePosition.y splineVector.y
  let z := ops.add basePosition.z splineVector.z
  let distance := ops.sqrt (ops.add (ops.mul x x) (ops.mul y y))
  let angle := ops.sub (ops.atan2 x y) DBCPosition.w
  let angle := if ops.ltZero angle then ops.add angle (ops.mul (ops.ofNat 2) ops.pi) else angle
  ⟨ops.add DBCPosition.x (ops.mul distance (ops.sin angle)),
   ops.add DBCPosition.y (ops.mul distance (ops.cos angle)),
   ops.add DBCPosition.z z⟩

/-! ## `readCamera` -/

/-- The body of the target loop after the bounds check: the `FlyByCamera` pushed for the
`i`-th target key, whose spline key `targPositions` points at byte offset `keyPtr`. -/
def targetCam {F : Type} (ops : FloatOps F) (mem : Memory F) (cam : M2Camera F)
    (DBCData : Vector4 F) (i keyPtr : Nat) : FlyByCamera F :=
  let newPos := TranslateLocation ops DBCData cam.target_position_base (mem.readP0 keyPtr)
  let thisCam := FlyByCamera.default ops
  let thisCam := { thisCam with
    timeStamp := mem.readU32 (cam.target_positions.timestamps.offset_elements + 4 * i) }
  { thisCam with locations := ⟨newPos.x, newPos.y, newPos.z, ops.zero⟩ }

/-- The scan `for (j = 0; j < targetcam.size(); ++j)` over the remaining target samples,
with the current `lastTarget` and `nextTarget`; yields the final `(lastTarget, nextTarget)`. -/
def scanTargets {F : Type} (T : Nat) :
    List (FlyByCamera F) → FlyByCamera F → FlyByCamera F → FlyByCamera F × FlyByCamera F
  | [], lastTarget, nextTarget => (lastTarget, nextTarget)
  | c :: rest, lastTarget, _ =>
    if c.timeStamp > T then (lastTarget, c) else scanTargets T rest c c

/-- The bracket `(lastTarget, nextTarget)` of a non-empty `targetcam` for timestamp `T`:
both are pre-loaded with `targetcam[0]`, then the scan runs from `j = 0`. -/
def findBracket {F : Type} (T : Nat) (first : FlyByCamera F) (rest : List (FlyByCamera F)) :
    FlyByCamera F × FlyByCamera F :=
  scanTargets T (first :: rest) first first

/-- The guard of the interpolation, `lastTarget.timeStamp != posTimestamps[i]`. -/
def interpolates {F : Type} (lastTarget : FlyByCamera F) (T : Nat) : Bool :=
  lastTarget.timeStamp != T

/-- The divisor `timeDiffTarget = nextTarget.timeStamp - lastTarget.timeStamp`. -/
def timeDiffTarget {F : Type} (lastTarget nextTarget : FlyByCamera F) : Nat :=
  subU32 nextTarget.timeStamp lastTarget.timeStamp

/-- The dividend `timeDiffThis = posTimestamps[i] - lastTarget.timeStamp`. -/
def timeDiffThis {F : Type} (lastTarget : FlyByCamera F) (T : Nat) : Nat :=
  subU32 T lastTarget.timeStamp

/-- The target point `(x, y, z)` the facing is computed from, given the bracket. -/
def targetPoint {F : Type} (ops : FloatOps F) (lastTarget nextTarget : FlyByCamera F)
    (T : Nat) : Vector3 F :=
  if interpolates lastTarget T then
    let fraction := ops.div (ops.ofNat (timeDiffThis lastTarget T))
      (ops.ofNat (timeDiffTarget lastTarget nextTarget))
    let xDiff := ops.sub nextTarget.locations.x lastTarget.locations.x
    let yDiff := ops.sub nextTarget.locations.y lastTarget.locations.y
    let zDiff := ops.sub nextTarget.locations.z lastTarget.locations.z
    ⟨ops.add lastTarget.locations.x (ops.mul xDiff fraction),
     ops.add lastTarget.locations.y (ops.mul yDiff fraction),
     ops.add lastTarget.locations.z (ops.mul zDiff fraction)⟩
  else
    ⟨lastTarget.locations.x, lastTarget.locations.y, lastTarget.locations.z⟩

/-- The facing towards the target point `p` from the camera at `(camX, camY)`:
`atan2(yDiff, xDiff)`, plus `2 * float(M_PI)` when negative. -/
def facingTo {F : Type} (ops : FloatOps F) (p : Vector3 F) (camX camY : F) : F :=
  let xDiff := ops.sub p.x camX
  let yDiff := ops.sub p.y camY
  let w := ops.atan2 yDiff xDiff
  if ops.ltZero w then ops.add w (ops.mul (ops.ofNat 2) ops.pi) else w

/-- The body of the position loop after the bounds check: the `FlyByCamera` pushed for the
`i`-th position key, whose spline key `positions` points at byte offset `keyPtr`.  The
facing `locations.w` is assigned only when `targetcam` is not empty. -/
def positionCam {F : Type} (ops : FloatOps F) (mem : Memory F) (cam : M2Camera F)
    (DBCData : Vector4 F) (targetcam : FlyByCameraCollection F) (i keyPtr : Nat) :
    FlyByCamera F :=
  let newPos := TranslateLocation ops DBCData cam.position_base (mem.readP0 keyPtr)
  let thisCam := FlyByCamera.default ops
  let thisCam := { thisCam with
    timeStamp := mem.readU32 (cam.positions.timestamps.offset_elements + 4 * i) }
  let thisCam := { thisCam with
    locations := ⟨newPos.x, newPos.y, newPos.z, thisCam.locations.w⟩ }
  match targetcam with
  | [] => thisCam
  | first :: rest =>
    let bracket := findBracket thisCam.timeStamp first rest
    let p := targetPoint ops bracket.1 bracket.2 thisCam.timeStamp
    { thisCam with
      locations := ⟨thisCam.locations.x, thisCam.locations.y, thisCam.locations.z,
        facingTo ops p thisCam.locations.x thisCam.locations.y⟩ }

/-- The two `for (uint32 i = 0; i < number; ++i)` loops of `readCamera`, which differ only
in the `FlyByCamera` they push (`body i keyPtr`).  The first argument is the number of
iterations left, `i` the loop counter, `currPos` the `uint32` cursor, `keyPtr` the byte
offset the key pointer (`targPositions`, `positions`) points at, `acc` the vector being
filled, `log` the dereferences so far.  `none` is `return false`. -/
def trackLoop {F : Type} (K buffSize tsOff : Nat) (body : Nat → Nat → FlyByCamera F) :
    Nat → Nat → Nat → Nat → FlyByCameraCollection F → List Access →
      Option (FlyByCameraCollection F) × List Access
  | 0, _, _, _, acc, log => (some acc, log)
  | n + 1, i, currPos, keyPtr, acc, log =>
    if currPos + K > buffSize then (none, log)
    else
      trackLoop K buffSize tsOff body n (i + 1) ((currPos + K) % 4294967296) (keyPtr + K)
        (acc ++ [body i keyPtr])
        (log ++ [Access.key keyPtr, Access.timestamp (tsOff + 4 * i)])

/-- What a call of `readCamera` yields: the returned `bool`, the store afterwards and the
dereferences made, in order. -/
structure ReadResult (F : Type) where
  ok : Bool
  store : Store F
  reads : List Access

/-- `readCamera`, with `K = sizeof(M2SplineKey<G3D::Vector3>)`; `mem` is the memory at
`header` (the start of the buffer) and `store` is `sFlyByCameraStore` before the call. -/
def readCamera {F : Type} (ops : FloatOps F) (K : Nat) (mem : Memory F) (cam : M2Camera F)
    (buffSize : Nat) (dbcentry : CinematicCameraEntry F) (store : Store F) : ReadResult F :=
  let DBCData : Vector4 F :=
    ⟨dbcentry.Origin.X, dbcentry.Origin.Y, dbcentry.Origin.Z, dbcentry.OriginFacing⟩
  -- Extract Target positions
  if cam.target_positions.timestamps.offset_elements + sizeofM2Array > buffSize then
    ⟨false, store, []⟩
  else
    match trackLoop K buffSize cam.target_positions.timestamps.offset_elements
        (targetCam ops mem cam DBCData) cam.target_positions.timestamps.number 0
        cam.target_positions.values.offset_elements
        cam.target_positions.values.offset_elements [] [] with
    | (none, log) => ⟨false, store, log⟩
    | (some targetcam, log) =>
      -- Extract Camera positions for this set
      if cam.positions.timestamps.offset_elements + sizeofM2Array > buffSize then
        ⟨false, store, log⟩
      else
        match trackLoop K buffSize cam.positions.timestamps.offset_elements
            (positionCam ops mem cam DBCData targetcam) cam.positions.timestamps.number 0
            cam.positions.values.offset_elements
            cam.positions.values.offset_elements [] log with
        | (none, log) => ⟨false, store, log⟩
        | (some cameras, log) =>
          ⟨true, fun k => if k = dbcentry.ID then some cameras else store k, log⟩

/-! ## An arithmetic with the IEEE 754 exceptional values

`XFloat` and `ieeeOps` are not binary32: conversions, sums, products and the constant `π` are
exact, and nothing overflows.  They serve to evaluate the code at inputs where binary32
computes the same values, and as one arithmetic that satisfies `FloatLaws`; `roundedOps`,
whose conversion `float(n)` rounds as binary32 does, is another.  What is stated of every
float arithmetic is stated for every `ops` that satisfies `FloatLaws`. -/

/-- A float value without rounding: a finite real, an infinity (`inf true` is `-∞`) or NaN. -/
inductive XFloat where
  | fin (r : ℝ)
  | inf (neg : Bool)
  | nan

namespace XFloat

/-- Negation. -/
noncomputable def neg : XFloat → XFloat
  | fin a => fin (-a)
  | inf s => inf (!s)
  | nan => nan

/-- Addition: `∞ + (-∞)` is NaN. -/
noncomputable def add : XFloat → XFloat → XFloat
  | fin a, fin b => fin (a + b)
  | fin _, inf s => inf s
  | inf s, fin _ => inf s
  | inf s, inf t => if s = t then inf s else nan
  | _, _ => nan

/-- Subtraction. -/
noncomputable def sub (a b : XFloat) : XFloat := add a (neg b)

/-- Multiplication: `0 * ∞` is NaN. -/
noncomputable def mul : XFloat → XFloat → XFloat
  | fin a, fin b => fin (a * b)
  | fin a, inf s => if a = 0 then nan else inf (xor (decide (a < 0)) s)
  | inf s, fin a => if a = 0 then nan else inf (xor s (decide (a < 0)))
  | inf s, inf t => inf (xor s t)
  | _, _ => nan

/-- Division: a non-zero finite value over zero is an infinity, `0 / 0` and `∞ / ∞` are NaN.
The sign of a zero is not modelled: a zero divisor counts as `+0`. -/
noncomputable def div : XFloat → XFloat → XFloat
  | fin a, fin b =>
    if b = 0 then (if a = 0 then nan else inf (decide (a < 0))) else fin (a / b)
  | fin _, inf _ => fin 0
  | inf s, fin b => inf (xor s (decide (b < 0)))
  | _, _ => nan

/-- Square root: NaN on negative values. -/
noncomputable def sqrt : XFloat → XFloat
  | fin a => if a < 0 then nan else fin (Real.sqrt a)
  | inf false => inf false
  | _ => nan

/-- Sine: NaN at the infinities. -/
noncomputable def sin : XFloat → XFloat
  | fin a => fin (Real.sin a)
  | _ => nan

/-- Cosine: NaN at the infinities. -/
noncomputable def cos : XFloat → XFloat
  | fin a => fin (Real.cos a)
  | _ => nan

/-- The two-argument arctangent `atan2 y x`, the argument of `x + y i`, with the values the
C library gives at the infinities. -/
noncomputable def atan2 : XFloat → XFloat → XFloat
  | fin y, fin x => fin (Complex.arg ⟨x, y⟩)
  | fin _, inf false => fin 0
  | fin y, inf true => fin (if y < 0 then -Real.pi else Real.pi)
  | inf s, fin _ => fin (if s then -(Real.pi / 2) else Real.pi / 2)
  | inf s, inf false => fin (if s then -(Real.pi / 4) else Real.pi / 4)
  | inf s, inf true => fin (if s then -(3 * Real.pi / 4) else 3 * Real.pi / 4)
  | _, _ => nan

/-- The comparison `v < 0`: false on NaN. -/
noncomputable def ltZero : XFloat → Bool
  | fin a => decide (a < 0)
  | inf s => s
  | nan => false

/-- The value is a number in `[0, 2π)`. -/
def inFacingRange : XFloat → Prop
  | fin r => 0 ≤ r ∧ r < 2 * Real.pi
  | _ => False

end XFloat

/-- The arithmetic on `XFloat`: exact on finite values, with the IEEE 754 rules for the
infinities and NaN.  It does not round, so it is not the arithmetic of binary32. -/
noncomputable def ieeeOps : FloatOps XFloat where
  add := XFloat.add
  sub := XFloat.sub
  mul := XFloat.mul
  div := XFloat.div
  sqrt := XFloat.sqrt
  sin := XFloat.sin
  cos := XFloat.cos
  atan2 := XFloat.atan2
  ltZero := XFloat.ltZero
  ofNat := fun n => XFloat.fin n
  zero := XFloat.fin 0
  pi := XFloat.fin Real.pi

/-! ## Auxiliary definitions for the statements -/

/-- The dereferences of `m` successive iterations of a track loop that starts with loop
counter `i` and key pointer `keyPtr`: per iteration the key, then the timestamp. -/
def keyReads (K tsOff : Nat) : Nat → Nat → Nat → List Access
  | 0, _, _ => []
  | m + 1, i, keyPtr =>
    Access.key keyPtr :: Access.timestamp (tsOff + 4 * i) :: keyReads K tsOff m (i + 1) (keyPtr + K)

/-- The `DBCData` vector `readCamera` builds from the placement record. -/
def dbcData {F : Type} (dbcentry : CinematicCameraEntry F) : Vector4 F :=
  ⟨dbcentry.Origin.X, dbcentry.Origin.Y, dbcentry.Origin.Z, dbcentry.OriginFacing⟩

/-- The target samples `readCamera` decodes when the target track passes its checks. -/
def decodedTargets {F : Type} (ops : FloatOps F) (K : Nat) (mem : Memory F) (cam : M2Camera F)
    (dbcentry : CinematicCameraEntry F) : FlyByCameraCollection F :=
  (List.range cam.target_positions.timestamps.number).map fun j =>
    targetCam ops mem cam (dbcData dbcentry) j (cam.target_positions.values.offset_elements + j * K)

/-- The waypoints `readCamera` builds when both tracks pass their checks. -/
def decodedCameras {F : Type} (ops : FloatOps F) (K : Nat) (mem : Memory F) (cam : M2Camera F)
    (dbcentry : CinematicCameraEntry F) : FlyByCameraCollection F :=
  (List.range cam.positions.timestamps.number).map fun j =>
    positionCam ops mem cam (dbcData dbcentry) (decodedTargets ops K mem cam dbcentry) j
      (cam.positions.values.offset_elements + j * K)

/-- The empty store. -/
def emptyStore {F : Type} : Store F := fun _ => none

/-! ## Example inputs -/

/-- A placement record with ID 7, anchored at the origin with facing 0. -/
noncomputable def exEntry : CinematicCameraEntry XFloat :=
  ⟨7, "Cameras\\FlyBy.mdx", ⟨XFloat.fin 0, XFloat.fin 0, XFloat.fin 0⟩, XFloat.fin 0⟩

/-- A memory whose floats are all `0.0` and whose `uint32` at offset 400 is 10, at offset 408
is 5, at offset 412 is 15, and 0 elsewhere. -/
noncomputable def exMem : Memory XFloat :=
  ⟨fun a => if a = 400 then 10 else if a = 408 then 5 else if a = 412 then 15 else 0,
    fun _ => XFloat.fin 0⟩

/-- A memory whose floats are all NaN and whose `uint32` values are all 0. -/
def nanMem : Memory XFloat := ⟨fun _ => 0, fun _ => XFloat.nan⟩

/-- A camera with one target sample (timestamp at offset 400, key at 500) and two position
samples (timestamps at offsets 408 and 412, keys at 536 and 572); both bases are the zero
vector. -/
noncomputable def exCam : M2Camera XFloat :=
  ⟨⟨⟨2, 408⟩, ⟨2, 536⟩⟩, ⟨XFloat.fin 0, XFloat.fin 0, XFloat.fin 0⟩,
   ⟨⟨1, 400⟩, ⟨1, 500⟩⟩, ⟨XFloat.fin 0, XFloat.fin 0, XFloat.fin 0⟩⟩

/-- A camera with an empty target track and two position samples (timestamps at offset 400,
keys at 500). -/
noncomputable def exCamNoTarget : M2Camera XFloat :=
  ⟨⟨⟨2, 400⟩, ⟨2, 500⟩⟩, ⟨XFloat.fin 0, XFloat.fin 0, XFloat.fin 0⟩,
   ⟨⟨0, 0⟩, ⟨0, 0⟩⟩, ⟨XFloat.fin 0, XFloat.fin 0, XFloat.fin 0⟩⟩

/-- A camera whose target track declares 5 keys from offset 900: in a buffer of 1000 bytes
with 36-byte keys the third key does not fit. -/
noncomputable def exCamTruncated : M2Camera XFloat :=
  ⟨⟨⟨1, 408⟩, ⟨1, 536⟩⟩, ⟨XFloat.fin 0, XFloat.fin 0, XFloat.fin 0⟩,
   ⟨⟨5, 400⟩, ⟨5, 900⟩⟩, ⟨XFloat.fin 0, XFloat.fin 0, XFloat.fin 0⟩⟩

/-! ## Real arithmetic -/

/-- The arithmetic of the real numbers: `atan2 y x` is the argument of `x + y i`. -/
noncomputable def realOps : FloatOps ℝ where
  add := fun a b => a + b
  sub := fun a b => a - b
  mul := fun a b => a * b
  div := fun a b => a / b
  sqrt := Real.sqrt
  sin := Real.sin
  cos := Real.cos
  atan2 := fun y x => Complex.arg ⟨x, y⟩
  ltZero := fun a => decide (a < 0)
  ofNat := fun n => (n : ℝ)
  zero := 0
  pi := Real.pi

/-! ## What is assumed of a float arithmetic -/

/-- How the values of an arithmetic are read: which are NaN, which are finite numbers, and
the real value of a finite number. -/
structure FloatView (F : Type) where
  isNaN : F → Prop
  isNum : F → Prop
  val : F → ℝ

/-- Properties of binary32 arithmetic with rounding to nearest, and of the C library's
`atan2`, that the statements about facings and interpolation fractions rest on. -/
structure FloatLaws {F : Type} (ops : FloatOps F) (view : FloatView F) : Prop where
  /-- On a finite number `v < 0` is the comparison of the values. -/
  ltZero_num : ∀ a, view.isNum a → (ops.ltZero a = true ↔ view.val a < 0)
  /-- `float(M_PI)` is a positive finite number. -/
  pi_num : view.isNum ops.pi ∧ 0 < view.val ops.pi
  /-- `2 * float(M_PI)` is exact. -/
  two_pi : view.isNum (ops.mul (ops.ofNat 2) ops.pi) ∧
    view.val (ops.mul (ops.ofNat 2) ops.pi) = 2 * view.val ops.pi
  /-- `atan2` of two arguments that are not NaN is a finite number between `-float(M_PI)`
  and `float(M_PI)`. -/
  atan2_range : ∀ y x, ¬ view.isNaN y → ¬ view.isNaN x →
    view.isNum (ops.atan2 y x) ∧ -view.val ops.pi ≤ view.val (ops.atan2 y x) ∧
      view.val (ops.atan2 y x) ≤ view.val ops.pi
  /-- Rounding is monotone and leaves floats as they are: a sum whose exact value lies
  between two floats is a finite number between them. -/
  add_between : ∀ a b lo hi, view.isNum a → view.isNum b → view.isNum lo → view.isNum hi →
    view.val lo ≤ view.val a + view.val b → view.val a + view.val b ≤ view.val hi →
    view.isNum (ops.add a b) ∧ view.val lo ≤ view.val (ops.add a b) ∧
      view.val (ops.add a b) ≤ view.val hi
  /-- `float(n)` of a `uint32` is a finite number, not negative. -/
  ofNat_num : ∀ n, n < 4294967296 → view.isNum (ops.ofNat n) ∧ 0 ≤ view.val (ops.ofNat n)
  /-- `float(n)` of a positive `uint32` is positive. -/
  ofNat_pos : ∀ n, 0 < n → n < 4294967296 → 0 < view.val (ops.ofNat n)
  /-- The conversion `float(n)` is monotone. -/
  ofNat_mono : ∀ a b, a ≤ b → b < 4294967296 →
    view.val (ops.ofNat a) ≤ view.val (ops.ofNat b)
  /-- A quotient whose exact value lies between 0 and 1 is a finite number between 0 and 1. -/
  div_between : ∀ a b, view.isNum a → view.isNum b → 0 ≤ view.val a →
    view.val a ≤ view.val b → 0 < view.val b →
    view.isNum (ops.div a b) ∧ 0 ≤ view.val (ops.div a b) ∧ view.val (ops.div a b) ≤ 1

/-- The reading of `XFloat` values. -/
noncomputable def XFloat.view : FloatView XFloat where
  isNaN := fun a => a = XFloat.nan
  isNum := fun a => ∃ r, a = XFloat.fin r
  val := fun a => match a with
    | XFloat.fin r => r
    | _ => 0

/-- By how many bits a `uint32` `n` exceeds the 24 bits of a binary32 significand. -/
def floatShift (n : Nat) : Nat :=
  if n < 16777216 then 0 else if n < 33554432 then 1 else if n < 67108864 then 2
  else if n < 134217728 then 3 else if n < 268435456 then 4 else if n < 536870912 then 5
  else if n < 1073741824 then 6 else if n < 2147483648 then 7 else 8

/-- The value of `float(n)` in binary32 for a `uint32` `n`: `n` rounded to 24 significant
bits, to nearest, ties to even. -/
def roundToFloat (n : Nat) : Nat :=
  let e := floatShift n
  if e = 0 then n
  else
    let q := n / 2 ^ e
    let r := n % 2 ^ e
    let half := 2 ^ (e - 1)
    if r > half ∨ (r = half ∧ q % 2 = 1) then (q + 1) * 2 ^ e else q * 2 ^ e

/-- In the binade from `lo` with spacing `step`, `r` is a multiple of the spacing within half
a spacing of `n`, inside the closed binade. -/
def RoundedIn (lo step : Nat) (n r : Nat) : Prop :=
  lo ≤ n ∧ n < 2 * lo ∧ r % step = 0 ∧ 2 * n ≤ 2 * r + step ∧ 2 * r ≤ 2 * n + step ∧
    lo ≤ r ∧ r ≤ 2 * lo

/-- The arithmetic `ieeeOps` with the conversion `float(n)` rounded as binary32 rounds it. -/
noncomputable def roundedOps : FloatOps XFloat :=
  { ieeeOps with ofNat := fun n => XFloat.fin (roundToFloat n) }

/-- A memory whose `uint32` values are all 0 and whose floats are all `0.0` except the one at
offset 504, which is `-1.0`. -/
noncomputable def exMemFacing : Memory XFloat :=
  ⟨fun _ => 0, fun a => if a = 504 then XFloat.fin (-1) else XFloat.fin 0⟩

/-! ## `LoadM2Cameras` -/

/-- `std::replace(filename.begin(), filename.end(), '\\', '/')`. -/
def replaceSlashes (filename : List Char) : List Char :=
  filename.map fun c => if c = '\\' then '/' else c

/-- Whether `pat` occurs in `s` at position 0. -/
def matchesAt : List Char → List Char → Bool
  | [], _ => true
  | _ :: _, [] => false
  | p :: ps, c :: cs => p == c && matchesAt ps cs

/-- `std::string::find`: the position of the first occurrence of `pat` in `s`, `none` for
`std::string::npos`. -/
def findSubstring (pat : List Char) : List Char → Option Nat
  | [] => if matchesAt pat [] then some 0 else none
  | c :: cs => if matchesAt pat (c :: cs) then some 0 else (findSubstring pat cs).map (· + 1)

/-- `std::string::replace(loc, n, r)`, for `loc + n` within the string. -/
def replaceAt (s : List Char) (loc n : Nat) (r : List Char) : List Char :=
  s.take loc ++ r ++ s.drop (loc + n)

/-- The name of the file `LoadM2Cameras` opens for a record with model path `Model`. -/
def resolveFilename (dataPath Model : String) : String :=
  let filename := dataPath.data ++ Model.data
  -- Replace slashes
  let filename := replaceSlashes filename
  -- Replace mdx to .m2
  match findSubstring ".mdx".data filename with
  | some loc => String.mk (replaceAt filename loc 4 ".m2".data)
  | none => String.mk filename

/-- What `LoadM2Cameras` sees of a file that opens. -/
structure M2File (F : Type) where
  /-- The `std::streamoff` that `tellg()` gives at the end of the file. -/
  fileSize : Nat
  /-- The four bytes `m2file.read(fileCheck, 4)` stores. -/
  signature : List Nat
  /-- Whether `m2file.read(buffer.data(), fileSize)` succeeds. -/
  readOk : Bool
  /-- The field `header->ofsCameras` of the buffer. -/
  ofsCameras : Nat
  /-- The `M2Camera` seen at a byte offset of the buffer. -/
  cameraAt : Nat → M2Camera F
  /-- The typed views of the buffer. -/
  mem : Memory F

/-- The bytes of `"MD20"`. -/
def magicMD20 : List Nat := [77, 68, 50, 48]

/-- The test `strcmp(fileCheck, "MD20")`, non-zero when the C string in `fileCheck` (its bytes
up to the first NUL; `fileCheck[4] = 0`) is not `"MD20"`. -/
def signatureMismatch (signature : List Nat) : Bool :=
  (signature.take 4).takeWhile (fun b => b != 0) != magicMD20

/-- The error lines `LoadM2Cameras` writes with `sLog.outError`, by message, with the name
of the file. -/
inductive Diagnostic where
  /-- "File is smaller than header size". -/
  | tooSmall (filename : String)
  /-- "File identifier not found". -/
  | badSignature (filename : String)
  /-- "Camera references position beyond file end (header)". -/
  | headerBounds (filename : String)
  /-- "Camera references position beyond file end (camera)". -/
  | cameraBounds (filename : String)
  deriving DecidableEq, Repr

/-- The state `LoadM2Cameras` works on: `sFlyByCameraStore` and the error lines written. -/
structure LoadState (F : Type) where
  store : Store F
  errors : List Diagnostic

/-- The `uint32` a `std::streamoff` is cast to. -/
def castU32 (n : Nat) : Nat := n % 4294967296

/-- One iteration of the loop of `LoadM2Cameras` over the placement records.  `H` is
`sizeof(M2Header)`, `C` is `sizeof(M2Camera)`, `K` is `sizeof(M2SplineKey<G3D::Vector3>)`
(`M2Structure.h` is not among the sources); `fs` gives the file that opens under a name,
`none` when `m2file.is_open()` is false. -/
def loadRecord {F : Type} (ops : FloatOps F) (H C K : Nat) (fs : String → Option (M2File F))
    (dataPath : String) (st : LoadState F) (dbcentry : CinematicCameraEntry F) : LoadState F :=
  let filename := resolveFilename dataPath dbcentry.Model
  match fs filename with
  | none => st
  | some file =>
    -- Reject if not at least the size of the header
    if castU32 file.fileSize < H then
      ⟨st.store, st.errors ++ [Diagnostic.tooSmall filename]⟩
    -- Check file has correct magic (MD20)
    else if signatureMismatch file.signature then
      ⟨st.store, st.errors ++ [Diagnostic.badSignature filename]⟩
    -- Now we have a good file, read it all into a vector of char's
    else if !file.readOk then
      st
    else if file.ofsCameras + C > castU32 file.fileSize then
      ⟨st.store, st.errors ++ [Diagnostic.headerBounds filename]⟩
    else
      let r := readCamera ops K file.mem (file.cameraAt file.ofsCameras)
        (castU32 file.fileSize) dbcentry st.store
      if !r.ok then ⟨r.store, st.errors ++ [Diagnostic.cameraBounds filename]⟩
      else ⟨r.store, st.errors⟩

/-- `LoadM2Cameras`: clears the store `store` found at the call, then runs over the records
of `sCinematicCameraStore`.  The two closing `sLog.outString` lines (count and elapsed time)
are not error lines and are left out. -/
def LoadM2Cameras {F : Type} (ops : FloatOps F) (H C K : Nat) (fs : String → Option (M2File F))
    (dataPath : String) (sCinematicCameraStore : List (CinematicCameraEntry F))
    (_store : Store F) : LoadState F :=
  sCinematicCameraStore.foldl (loadRecord ops H C K fs dataPath) ⟨fun _ => none, []⟩

/-- A file system with one file, under the name the record `exEntry` resolves to with the
data path `/data/`. -/
def exFs (file : M2File XFloat) : String → Option (M2File XFloat) :=
  fun name => if name = "/data/Cameras/FlyBy.m2" then some file else none

/-- A file of 100 bytes. -/
noncomputable def exFileShort : M2File XFloat :=
  ⟨100, [77, 68, 50, 48], true, 0, fun _ => exCam, exMem⟩

/-- A file of 1000 bytes that starts with `MD21`. -/
noncomputable def exFileBadMagic : M2File XFloat :=
  ⟨1000, [77, 68, 50, 49], true, 600, fun _ => exCam, exMem⟩

/-- A file like `exFileGood` on which reading the whole file fails. -/
noncomputable def exFileUnread : M2File XFloat :=
  ⟨1000, [77, 68, 50, 48], false, 600, fun _ => exCam, exMem⟩

/-- A file of `2^32 + 100` bytes that starts with `MD21`. -/
noncomputable def exFileHugeBadMagic : M2File XFloat :=
  ⟨4294967396, [77, 68, 50, 49], true, 600, fun _ => exCam, exMem⟩

end M2Stores

namespace CharacterDatabaseCleaner

/-! ## `CharacterDatabaseCleaner::CheckUnique` -/

/-- What a call of `CheckUnique` does: the statements passed to
`CharacterDatabase.Execute` and the lines written with `sLog.outString`, in order.  The
progress bar is left out. -/
structure Effects where
  executed : List String
  logged : List String

/-- The body of the `do ... while (result->NextRow())` loop for a row with value `id`; the
state is `(found, ss)`. -/
def checkRow (column table : String) (check : Nat → Bool) (id : Nat) (st : Bool × String) :
    Bool × String :=
  if !check id then
    if !st.1 then
      (true, st.2 ++ "DELETE FROM " ++ table ++ " WHERE " ++ column ++ " IN (" ++ toString id)
    else
      (true, st.2 ++ "," ++ toString id)
  else st

/-- The loop over the rows of the result. -/
def rowLoop (column table : String) (check : Nat → Bool) :
    List Nat → Bool × String → Bool × String
  | [], st => st
  | id :: rest, st => rowLoop column table check rest (checkRow column table check id st)

/-- `CheckUnique`: `result` is what the `SELECT DISTINCT` gives, `none` for a null result
and otherwise the value of the first row and those of the rows after it. -/
def CheckUnique (column table : String) (check : Nat → Bool)
    (result : Option (Nat × List Nat)) : Effects :=
  match result with
  | none => ⟨[], ["Table " ++ table ++ " is empty."]⟩
  | some (first, rest) =>
    let st := rowLoop column table check (first :: rest) (false, "")
    if st.1 then ⟨[st.2 ++ ")"], []⟩ else ⟨[], []⟩

end CharacterDatabaseCleaner

namespace M2Stores

/-! ## The track loop -/

theorem trackLoop_some {F : Type} (K buffSize tsOff : Nat) (body : Nat → Nat → FlyByCamera F) :
    ∀ (n i currPos keyPtr : Nat) (acc : FlyByCameraCollection F) (log : List Access)
      (l : FlyByCameraCollection F),
      (trackLoop K buffSize tsOff body n i currPos keyPtr acc log).1 = some l →
      l = acc ++ (List.range n).map fun j => body (i + j) (keyPtr + j * K) := by
  intro n
  induction n with
  | zero =>
    intro i currPos keyPtr acc log l h
    simp [trackLoop] at h
    simp [h]
  | succ n ih =>
    intro i currPos keyPtr acc log l h
    rw [trackLoop] at h
    split at h
    · simp at h
    · have h2 := ih _ _ _ _ _ l h
      rw [h2, List.range_succ_eq_map, List.map_cons, List.map_map, List.append_assoc]
      simp only [List.singleton_append, Nat.add_zero, Nat.zero_mul]
      congr 2
      apply List.map_congr_left
      intro j _
      simp only [Function.comp, Nat.succ_eq_add_one]
      congr 1
      · omega
      · rw [Nat.add_mul]; omega

theorem trackLoop_abort {F : Type} (K buffSize tsOff : Nat) (body : Nat → Nat → FlyByCamera F)
    (hbuf : buffSize < 4294967296) :
    ∀ (n i currPos keyPtr : Nat) (acc : FlyByCameraCollection F) (log : List Access),
      0 < n → currPos + n * K > buffSize →
      ∃ i0, i0 < n ∧ (∀ j, j < i0 → currPos + (j + 1) * K ≤ buffSize) ∧
        currPos + (i0 + 1) * K > buffSize ∧
        trackLoop K buffSize tsOff body n i currPos keyPtr acc log
          = (none, log ++ keyReads K tsOff i0 i keyPtr) := by
  intro n
  induction n with
  | zero =>
    intro i currPos keyPtr acc log hn
    omega
  | succ n ih =>
    intro i currPos keyPtr acc log _ h
    by_cases hk : currPos + K > buffSize
    · refine ⟨0, by omega, by intro j hj; omega, by omega, ?_⟩
      rw [trackLoop]
      simp [hk, keyReads]
    · have hmod : (currPos + K) % 4294967296 = currPos + K := Nat.mod_eq_of_lt (by omega)
      have hs : (n + 1) * K = n * K + K := Nat.succ_mul n K
      have h' : currPos + K + n * K > buffSize := by omega
      have hn : 0 < n := by
        rcases Nat.eq_zero_or_pos n with h0 | h0
        · subst h0
          simp at h'
          omega
        · exact h0
      obtain ⟨i0, h0, hfit, hbad, hrun⟩ :=
        ih (i + 1) (currPos + K) (keyPtr + K) (acc ++ [body i keyPtr])
          (log ++ [Access.key keyPtr, Access.timestamp (tsOff + 4 * i)]) hn h'
      refine ⟨i0 + 1, by omega, ?_, ?_, ?_⟩
      · intro j hj
        cases j with
        | zero => omega
        | succ j =>
          have h1 := hfit j (by omega)
          have h2 : (j + 1 + 1) * K = (j + 1) * K + K := Nat.succ_mul (j + 1) K
          omega
      · have h2 : (i0 + 1 + 1) * K = (i0 + 1) * K + K := Nat.succ_mul (i0 + 1) K
        omega
      · rw [trackLoop]
        simp only [hk, if_false, hmod, hrun, keyReads]
        simp

/-! ## The bracket scan -/

theorem scanTargets_split {F : Type} (T : Nat) :
    ∀ (l : List (FlyByCamera F)) (lastTarget nextTarget : FlyByCamera F),
      List.Pairwise (fun a b => a.timeStamp ≤ b.timeStamp) l →
      ((scanTargets T l lastTarget nextTarget).1 = lastTarget ∧ ∀ d ∈ l, T < d.timeStamp) ∨
      ∃ pre c post, l = pre ++ c :: post ∧ (scanTargets T l lastTarget nextTarget).1 = c ∧
        c.timeStamp ≤ T ∧ ∀ d ∈ post, T < d.timeStamp := by
  intro l
  induction l with
  | nil =>
    intro lastTarget nextTarget _
    exact Or.inl ⟨rfl, by simp⟩
  | cons c rest ih =>
    intro lastTarget nextTarget hp
    rw [List.pairwise_cons] at hp
    by_cases hc : c.timeStamp > T
    · left
      refine ⟨by simp [scanTargets, hc], ?_⟩
      intro d hd
      rcases List.mem_cons.mp hd with rfl | hd
      · exact hc
      · exact Nat.lt_of_lt_of_le hc (hp.1 d hd)
    · right
      rcases ih c c hp.2 with ⟨h1, h2⟩ | ⟨pre, c', post, h1, h2, h3, h4⟩
      · exact ⟨[], c, rest, rfl, by simp [scanTargets, hc, h1], by omega, h2⟩
      · exact ⟨c :: pre, c', post, by simp [h1], by simp [scanTargets, hc, h2], h3, h4⟩

/-! ## The shape of a call of `readCamera` -/

theorem readCamera_cases {F : Type} (ops : FloatOps F) (K : Nat) (mem : Memory F)
    (cam : M2Camera F) (buffSize : Nat) (dbcentry : CinematicCameraEntry F) (store : Store F) :
    (∃ log, readCamera ops K mem cam buffSize dbcentry store = ⟨false, store, log⟩) ∨
    (∃ log, readCamera ops K mem cam buffSize dbcentry store
      = ⟨true, fun k => if k = dbcentry.ID then some (decodedCameras ops K mem cam dbcentry)
          else store k, log⟩) := by
  unfold readCamera
  dsimp only
  split
  · exact Or.inl ⟨_, rfl⟩
  · split
    · exact Or.inl ⟨_, rfl⟩
    · split
      · exact Or.inl ⟨_, rfl⟩
      · split
        · exact Or.inl ⟨_, rfl⟩
        · rename_i targetcam _ h2 _ _ cameras _ h4
          have e1 := trackLoop_some _ _ _ _ _ _ _ _ _ _ targetcam (by rw [h2])
          simp only [List.nil_append, Nat.zero_add] at e1
          subst e1
          have e2 := trackLoop_some _ _ _ _ _ _ _ _ _ _ cameras (by rw [h4])
          simp only [List.nil_append, Nat.zero_add] at e2
          subst e2
          exact Or.inr ⟨_, rfl⟩

theorem readCamera_false_store {F : Type} (ops : FloatOps F) (K : Nat) (mem : Memory F)
    (cam : M2Camera F) (buffSize : Nat) (dbcentry : CinematicCameraEntry F) (store : Store F)
    (h : (readCamera ops K mem cam buffSize dbcentry store).ok = false) :
    (readCamera ops K mem cam buffSize dbcentry store).store = store := by
  rcases readCamera_cases ops K mem cam buffSize dbcentry store with ⟨log, e⟩ | ⟨log, e⟩
  · rw [e]
  · rw [e] at h
    simp at h

theorem readCamera_true_store {F : Type} (ops : FloatOps F) (K : Nat) (mem : Memory F)
    (cam : M2Camera F) (buffSize : Nat) (dbcentry : CinematicCameraEntry F) (store : Store F)
    (h : (readCamera ops K mem cam buffSize dbcentry store).ok = true) :
    (readCamera ops K mem cam buffSize dbcentry store).store
      = fun k => if k = dbcentry.ID then some (decodedCameras ops K mem cam dbcentry)
          else store k := by
  rcases readCamera_cases ops K mem cam buffSize dbcentry store with ⟨log, e⟩ | ⟨log, e⟩
  · rw [e] at h
    simp at h
  · rw [e]

theorem positionCam_timeStamp {F : Type} (ops : FloatOps F) (mem : Memory F) (cam : M2Camera F)
    (DBCData : Vector4 F) (targetcam : FlyByCameraCollection F) (i keyPtr : Nat) :
    (positionCam ops mem cam DBCData targetcam i keyPtr).timeStamp
      = mem.readU32 (cam.positions.timestamps.offset_elements + 4 * i) := by
  unfold positionCam
  cases targetcam <;> rfl

theorem positionCam_position {F : Type} (ops : FloatOps F) (mem : Memory F) (cam : M2Camera F)
    (DBCData : Vector4 F) (targetcam : FlyByCameraCollection F) (i keyPtr : Nat) :
    (⟨(positionCam ops mem cam DBCData targetcam i keyPtr).locations.x,
      (positionCam ops mem cam DBCData targetcam i keyPtr).locations.y,
      (positionCam ops mem cam DBCData targetcam i keyPtr).locations.z⟩ : Vector3 F)
      = TranslateLocation ops DBCData cam.position_base (mem.readP0 keyPtr) := by
  unfold positionCam
  cases targetcam <;> rfl

/-! ## Evaluation at the example inputs -/

theorem translate_zero :
    TranslateLocation ieeeOps ⟨XFloat.fin 0, XFloat.fin 0, XFloat.fin 0, XFloat.fin 0⟩
      ⟨XFloat.fin 0, XFloat.fin 0, XFloat.fin 0⟩ ⟨XFloat.fin 0, XFloat.fin 0, XFloat.fin 0⟩
      = ⟨XFloat.fin 0, XFloat.fin 0, XFloat.fin 0⟩ := by
  simp [TranslateLocation, ieeeOps, XFloat.add, XFloat.sub, XFloat.mul, XFloat.sqrt,
    XFloat.atan2, XFloat.sin, XFloat.cos, XFloat.ltZero, XFloat.neg]

theorem translate_nan (d : Vector4 XFloat) (b : Vector3 XFloat) :
    TranslateLocation ieeeOps d b ⟨XFloat.nan, XFloat.nan, XFloat.nan⟩
      = ⟨XFloat.nan, XFloat.nan, XFloat.nan⟩ := by
  simp [TranslateLocation, ieeeOps, XFloat.add, XFloat.sub, XFloat.mul, XFloat.sqrt,
    XFloat.atan2, XFloat.sin, XFloat.cos, XFloat.ltZero, XFloat.neg]

theorem exCam_ok : (readCamera ieeeOps 36 exMem exCam 1000 exEntry emptyStore).ok = true := by
  simp [readCamera, trackLoop, sizeofM2Array, exCam]

theorem exCam_targets :
    decodedTargets ieeeOps 36 exMem exCam exEntry
      = [⟨10, ⟨XFloat.fin 0, XFloat.fin 0, XFloat.fin 0, XFloat.fin 0⟩⟩] := by
  have h := translate_zero
  simp [decodedTargets, targetCam, dbcData, exCam, exEntry, exMem, Memory.readU32,
    Memory.readP0, FlyByCamera.default, List.range_succ, h]
  simp [ieeeOps]

theorem exCam_nan_ok :
    (readCamera ieeeOps 36 nanMem exCam 1000 exEntry emptyStore).ok = true := by
  simp [readCamera, trackLoop, sizeofM2Array, exCam]

/-- The target point computed from a collapsed bracket on a sample at the origin, for a
position timestamp `T` that differs from the sample's timestamp `t`, is NaN in every
coordinate: the divisor is `float(0)`. -/
theorem targetPoint_collapsed (t T : Nat) (w : XFloat) (h : t ≠ T) (ht : t < 4294967296)
    (hT : T < 4294967296) :
    targetPoint ieeeOps ⟨t, ⟨XFloat.fin 0, XFloat.fin 0, XFloat.fin 0, w⟩⟩
      ⟨t, ⟨XFloat.fin 0, XFloat.fin 0, XFloat.fin 0, w⟩⟩ T
      = ⟨XFloat.nan, XFloat.nan, XFloat.nan⟩ := by
  have h1 : subU32 t t = 0 := by
    unfold subU32
    omega
  have h2 : subU32 T t ≠ 0 := by
    unfold subU32
    omega
  have h3 : ((subU32 T t : Nat) : ℝ) ≠ 0 := by exact_mod_cast h2
  simp [targetPoint, interpolates, h, timeDiffTarget, timeDiffThis, h1, ieeeOps, XFloat.div,
    XFloat.sub, XFloat.add, XFloat.neg, XFloat.mul, h3]

theorem atan2_range (a b : XFloat) :
    XFloat.atan2 a b = XFloat.nan ∨
      ∃ r, XFloat.atan2 a b = XFloat.fin r ∧ -Real.pi ≤ r ∧ r ≤ Real.pi := by
  have hpi := Real.pi_pos
  cases a with
  | nan => left; cases b <;> rfl
  | fin y =>
    cases b with
    | nan => left; rfl
    | fin x =>
      right
      exact ⟨_, rfl, le_of_lt (Complex.neg_pi_lt_arg _), Complex.arg_le_pi _⟩
    | inf s =>
      right
      cases s with
      | false => exact ⟨0, rfl, by linarith, by linarith⟩
      | true =>
        refine ⟨_, rfl, ?_, ?_⟩ <;> split <;> linarith
  | inf s =>
    cases b with
    | nan => left; rfl
    | fin x =>
      right
      refine ⟨_, rfl, ?_, ?_⟩ <;> split <;> linarith
    | inf t =>
      right
      cases t <;> (refine ⟨_, rfl, ?_, ?_⟩ <;> split <;> linarith)

theorem ieeeOps_laws : FloatLaws ieeeOps XFloat.view where
  ltZero_num := by
    rintro a ⟨r, rfl⟩
    simp [ieeeOps, XFloat.ltZero, XFloat.view]
  pi_num := ⟨⟨Real.pi, rfl⟩, Real.pi_pos⟩
  two_pi := by
    refine ⟨⟨((2 : ℕ) : ℝ) * Real.pi, rfl⟩, ?_⟩
    simp [ieeeOps, XFloat.mul, XFloat.view]
  atan2_range := by
    intro y x hy hx
    rcases atan2_range y x with h | ⟨r, h, h1, h2⟩
    · exfalso
      cases y with
      | nan => exact hy rfl
      | fin a =>
        cases x with
        | nan => exact hx rfl
        | fin b => simp [XFloat.atan2] at h
        | inf t => cases t <;> simp [XFloat.atan2] at h
      | inf s =>
        cases x with
        | nan => exact hx rfl
        | fin b => simp [XFloat.atan2] at h
        | inf t => cases t <;> simp [XFloat.atan2] at h
    · refine ⟨⟨r, h⟩, ?_, ?_⟩
      · show -Real.pi ≤ XFloat.view.val (XFloat.atan2 y x)
        rw [h]
        exact h1
      · show XFloat.view.val (XFloat.atan2 y x) ≤ Real.pi
        rw [h]
        exact h2
  add_between := by
    rintro a b lo hi ⟨ra, rfl⟩ ⟨rb, rfl⟩ ⟨rlo, rfl⟩ ⟨rhi, rfl⟩ h1 h2
    exact ⟨⟨ra + rb, rfl⟩, h1, h2⟩
  ofNat_num := by
    intro n _
    exact ⟨⟨(n : ℝ), rfl⟩, Nat.cast_nonneg n⟩
  ofNat_pos := by
    intro n hn _
    show (0 : ℝ) < (n : ℝ)
    exact_mod_cast hn
  ofNat_mono := by
    intro a b hab _
    show (a : ℝ) ≤ (b : ℝ)
    exact_mod_cast hab
  div_between := by
    rintro a b ⟨ra, rfl⟩ ⟨rb, rfl⟩ h0 h1 h2
    have h0r : 0 ≤ ra := h0
    have h1r : ra ≤ rb := h1
    have h2r : 0 < rb := h2
    have hne : rb ≠ 0 := ne_of_gt h2r
    refine ⟨⟨ra / rb, by simp [ieeeOps, XFloat.div, hne]⟩, ?_, ?_⟩
    · show 0 ≤ XFloat.view.val (XFloat.div (XFloat.fin ra) (XFloat.fin rb))
      simp only [XFloat.div, hne, if_false]
      exact div_nonneg h0r (le_of_lt h2r)
    · show XFloat.view.val (XFloat.div (XFloat.fin ra) (XFloat.fin rb)) ≤ 1
      simp only [XFloat.div, hne, if_false]
      exact (div_le_one h2r).mpr h1r

/-! ## The conversion `float(n)` -/

theorem roundToFloat_of_shift (n e : Nat) (he : floatShift n = e) (hpos : e ≠ 0) :
    roundToFloat n
      = if n % 2 ^ e > 2 ^ (e - 1) ∨ (n % 2 ^ e = 2 ^ (e - 1) ∧ (n / 2 ^ e) % 2 = 1)
        then (n / 2 ^ e + 1) * 2 ^ e else (n / 2 ^ e) * 2 ^ e := by
  simp [roundToFloat, he, hpos]

theorem floatShift_of_range (n e lo : Nat)
    (hlo : lo = 8388608 * 2 ^ e) (h1 : lo ≤ n) (h2 : n < 2 * lo) (he : 1 ≤ e) (he8 : e ≤ 8) :
    floatShift n = e := by
  unfold floatShift
  interval_cases e <;> norm_num at hlo <;> subst hlo <;> (split_ifs <;> omega)

theorem roundToFloat_cases (n : Nat) (h : n < 4294967296) :
    (n < 16777216 ∧ roundToFloat n = n) ∨
    RoundedIn 16777216 2 n (roundToFloat n) ∨
    RoundedIn 33554432 4 n (roundToFloat n) ∨
    RoundedIn 67108864 8 n (roundToFloat n) ∨
    RoundedIn 134217728 16 n (roundToFloat n) ∨
    RoundedIn 268435456 32 n (roundToFloat n) ∨
    RoundedIn 536870912 64 n (roundToFloat n) ∨
    RoundedIn 1073741824 128 n (roundToFloat n) ∨
    RoundedIn 2147483648 256 n (roundToFloat n) := by
  have hb : n < 16777216 ∨ (16777216 ≤ n ∧ n < 33554432) ∨ (33554432 ≤ n ∧ n < 67108864) ∨
      (67108864 ≤ n ∧ n < 134217728) ∨ (134217728 ≤ n ∧ n < 268435456) ∨
      (268435456 ≤ n ∧ n < 536870912) ∨ (536870912 ≤ n ∧ n < 1073741824) ∨
      (1073741824 ≤ n ∧ n < 2147483648) ∨ (2147483648 ≤ n ∧ n < 4294967296) := by omega
  rcases hb with hb | hb | hb | hb | hb | hb | hb | hb | hb
  · left
    exact ⟨hb, by simp [roundToFloat, floatShift, hb]⟩
  · right; left
    rw [roundToFloat_of_shift n 1 (floatShift_of_range n 1 16777216 (by norm_num) hb.1
      (by omega) (by omega) (by omega)) (by decide)]
    unfold RoundedIn
    norm_num
    split_ifs <;> omega
  · right; right; left
    rw [roundToFloat_of_shift n 2 (floatShift_of_range n 2 33554432 (by norm_num) hb.1
      (by omega) (by omega) (by omega)) (by decide)]
    unfold RoundedIn
    norm_num
    split_ifs <;> omega
  · right; right; right; left
    rw [roundToFloat_of_shift n 3 (floatShift_of_range n 3 67108864 (by norm_num) hb.1
      (by omega) (by omega) (by omega)) (by decide)]
    unfold RoundedIn
    norm_num
    split_ifs <;> omega
  · right; right; right; right; left
    rw [roundToFloat_of_shift n 4 (floatShift_of_range n 4 134217728 (by norm_num) hb.1
      (by omega) (by omega) (by omega)) (by decide)]
    unfold RoundedIn
    norm_num
    split_ifs <;> omega
  · right; right; right; right; right; left
    rw [roundToFloat_of_shift n 5 (floatShift_of_range n 5 268435456 (by norm_num) hb.1
      (by omega) (by omega) (by omega)) (by decide)]
    unfold RoundedIn
    norm_num
    split_ifs <;> omega
  · right; right; right; right; right; right; left
    rw [roundToFloat_of_shift n 6 (floatShift_of_range n 6 536870912 (by norm_num) hb.1
      (by omega) (by omega) (by omega)) (by decide)]
    unfold RoundedIn
    norm_num
    split_ifs <;> omega
  · right; right; right; right; right; right; right; left
    rw [roundToFloat_of_shift n 7 (floatShift_of_range n 7 1073741824 (by norm_num) hb.1
      (by omega) (by omega) (by omega)) (by decide)]
    unfold RoundedIn
    norm_num
    split_ifs <;> omega
  · right; right; right; right; right; right; right; right
    rw [roundToFloat_of_shift n 8 (floatShift_of_range n 8 2147483648 (by norm_num) hb.1
      (by omega) (by omega) (by omega)) (by decide)]
    unfold RoundedIn
    norm_num
    split_ifs <;> omega

theorem roundToFloat_mono (a b : Nat) (hab : a ≤ b) (hb : b < 4294967296) :
    roundToFloat a ≤ roundToFloat b := by
  rcases Nat.eq_or_lt_of_le hab with rfl | hlt
  · exact Nat.le_refl _
  · have ha := roundToFloat_cases a (by omega)
    have hb := roundToFloat_cases b hb
    unfold RoundedIn at ha hb
    rcases ha with ha | ha | ha | ha | ha | ha | ha | ha | ha <;>
    rcases hb with hb | hb | hb | hb | hb | hb | hb | hb | hb <;>
    omega

theorem roundToFloat_pos (n : Nat) (hn : 0 < n) (h : n < 4294967296) : 0 < roundToFloat n := by
  have hc := roundToFloat_cases n h
  unfold RoundedIn at hc
  rcases hc with hc | hc | hc | hc | hc | hc | hc | hc | hc <;> omega

theorem roundedOps_laws : FloatLaws roundedOps XFloat.view where
  ltZero_num := ieeeOps_laws.ltZero_num
  pi_num := ieeeOps_laws.pi_num
  two_pi := by
    have h2 : roundToFloat 2 = 2 := by decide
    refine ⟨⟨((2 : ℕ) : ℝ) * Real.pi, ?_⟩, ?_⟩
    · simp [roundedOps, ieeeOps, XFloat.mul, h2]
    · simp [roundedOps, ieeeOps, XFloat.mul, XFloat.view, h2]
  atan2_range := ieeeOps_laws.atan2_range
  add_between := ieeeOps_laws.add_between
  ofNat_num := by
    intro n _
    exact ⟨⟨(roundToFloat n : ℝ), rfl⟩, Nat.cast_nonneg _⟩
  ofNat_pos := by
    intro n hn h
    show (0 : ℝ) < (roundToFloat n : ℝ)
    exact_mod_cast roundToFloat_pos n hn h
  ofNat_mono := by
    intro a b hab hb
    show (roundToFloat a : ℝ) ≤ (roundToFloat b : ℝ)
    exact_mod_cast roundToFloat_mono a b hab hb
  div_between := ieeeOps_laws.div_between

/-- In an arithmetic with the properties `FloatLaws`, the facing computed from differences
that are not NaN is a finite number between 0 and `2 * float(M_PI)`. -/
theorem facingTo_bounds {F : Type} (ops : FloatOps F) (view : FloatView F)
    (laws : FloatLaws ops view) (p : Vector3 F) (camX camY : F)
    (hx : ¬ view.isNaN (ops.sub p.x camX)) (hy : ¬ view.isNaN (ops.sub p.y camY)) :
    view.isNum (facingTo ops p camX camY) ∧ 0 ≤ view.val (facingTo ops p camX camY) ∧
      view.val (facingTo ops p camX camY) ≤ 2 * view.val ops.pi := by
  obtain ⟨hnum, hlo, hhi⟩ := laws.atan2_range (ops.sub p.y camY) (ops.sub p.x camX) hy hx
  obtain ⟨hpn, hpp⟩ := laws.pi_num
  obtain ⟨htn, htv⟩ := laws.two_pi
  unfold facingTo
  dsimp only
  cases hlt : ops.ltZero (ops.atan2 (ops.sub p.y camY) (ops.sub p.x camX)) with
  | true =>
    have hneg := (laws.ltZero_num _ hnum).mp hlt
    simp only [if_true]
    obtain ⟨h1, h2, h3⟩ := laws.add_between _ _ ops.pi (ops.mul (ops.ofNat 2) ops.pi)
      hnum htn hpn htn (by rw [htv]; linarith) (by rw [htv]; linarith)
    refine ⟨h1, by linarith, ?_⟩
    rw [htv] at h3
    exact h3
  | false =>
    have hnn : ¬ (view.val (ops.atan2 (ops.sub p.y camY) (ops.sub p.x camX)) < 0) := by
      intro h
      have := (laws.ltZero_num _ hnum).mpr h
      rw [hlt] at this
      exact Bool.false_ne_true this
    simp only [Bool.false_eq_true, if_false]
    exact ⟨hnum, by linarith, by linarith⟩

/-! ## The claims -/

/-- C1 (the code departs from it): with 36-byte keys and a buffer of 1000 bytes, a target
track of 5 samples whose timestamp array starts at offset 992 and whose keys start at offset
500 passes every check of `readCamera`, which returns true, yet the third timestamp is read
at bytes 1000..1003, outside the buffer; the declared timestamp range `992 + 4 * 5` does not
fit.  This holds for every arithmetic, memory content, base vectors, record and store. -/
theorem readCamera_reads_timestamp_out_of_bounds :
    ∀ (F : Type) (ops : FloatOps F) (mem : Memory F) (pb tb : Vector3 F)
      (dbcentry : CinematicCameraEntry F) (store : Store F),
      (readCamera ops 36 mem ⟨⟨⟨0, 0⟩, ⟨0, 0⟩⟩, pb, ⟨⟨5, 992⟩, ⟨5, 500⟩⟩, tb⟩ 1000
          dbcentry store).ok = true ∧
      Access.timestamp 1000 ∈
        (readCamera ops 36 mem ⟨⟨⟨0, 0⟩, ⟨0, 0⟩⟩, pb, ⟨⟨5, 992⟩, ⟨5, 500⟩⟩, tb⟩ 1000
          dbcentry store).reads ∧
      ¬ Access.inBounds 36 1000 (Access.timestamp 1000) ∧
      ¬ (992 + 4 * 5 ≤ 1000) := by
  intro F ops mem pb tb dbcentry store
  refine ⟨?_, ?_, ?_, by decide⟩
  · simp [readCamera, trackLoop, sizeofM2Array]
  · simp [readCamera, trackLoop, sizeofM2Array]
  · simp [Access.inBounds]

/-- C2: if the declared keys of the target track or of the position track (`N > 0` keys of
`K` bytes from offset `o`) do not fit in the buffer, `readCamera` returns false and leaves
the store as it was; and the key loop run on that track returns false exactly at the first
key `i0` that does not fit, having dereferenced only the `i0` keys before it. -/
theorem readCamera_key_bounds_abort {F : Type} (ops : FloatOps F) (K : Nat) (mem : Memory F)
    (cam : M2Camera F) (buffSize : Nat) (dbcentry : CinematicCameraEntry F) (store : Store F)
    (track : M2Track) (htrack : track = cam.target_positions ∨ track = cam.positions)
    (hbuf : buffSize < 4294967296) (hN : 0 < track.timestamps.number)
    (hover : track.values.offset_elements + track.timestamps.number * K > buffSize) :
    (readCamera ops K mem cam buffSize dbcentry store).ok = false ∧
    (readCamera ops K mem cam buffSize dbcentry store).store = store ∧
    ∃ i0, i0 < track.timestamps.number ∧
      (∀ j, j < i0 → track.values.offset_elements + (j + 1) * K ≤ buffSize) ∧
      track.values.offset_elements + (i0 + 1) * K > buffSize ∧
      ∀ (tsOff : Nat) (body : Nat → Nat → FlyByCamera F) (acc : FlyByCameraCollection F)
        (log : List Access),
        trackLoop K buffSize tsOff body track.timestamps.number 0 track.values.offset_elements
            track.values.offset_elements acc log
          = (none, log ++ keyReads K tsOff i0 0 track.values.offset_elements) := by
  have hloop : ∀ (tsOff : Nat) (body : Nat → Nat → FlyByCamera F)
      (acc : FlyByCameraCollection F) (log : List Access),
      (trackLoop K buffSize tsOff body track.timestamps.number 0 track.values.offset_elements
        track.values.offset_elements acc log).1 = none := by
    intro tsOff body acc log
    obtain ⟨i0, _, _, _, hrun⟩ := trackLoop_abort K buffSize tsOff body hbuf
      track.timestamps.number 0 track.values.offset_elements track.values.offset_elements
      acc log hN hover
    rw [hrun]
  have hfalse : (readCamera ops K mem cam buffSize dbcentry store).ok = false := by
    unfold readCamera
    dsimp only
    split
    · rfl
    · split
      · rfl
      · split
        · rfl
        · split
          · rfl
          · rename_i _ _ targetcam log1 h2 _ _ cameras _ h4
            rcases htrack with e | e
            · have := hloop cam.target_positions.timestamps.offset_elements
                (targetCam ops mem cam
                  ⟨dbcentry.Origin.X, dbcentry.Origin.Y, dbcentry.Origin.Z,
                    dbcentry.OriginFacing⟩) [] []
              rw [e, h2] at this
              simp at this
            · have := hloop cam.positions.timestamps.offset_elements
                (positionCam ops mem cam
                  ⟨dbcentry.Origin.X, dbcentry.Origin.Y, dbcentry.Origin.Z,
                    dbcentry.OriginFacing⟩ targetcam) [] log1
              rw [e, h4] at this
              simp at this
  refine ⟨hfalse, readCamera_false_store ops K mem cam buffSize dbcentry store hfalse, ?_⟩
  obtain ⟨i0, h0, hfit, hbad, _⟩ := trackLoop_abort K buffSize 0 (fun _ _ => FlyByCamera.default ops)
    hbuf track.timestamps.number 0 track.values.offset_elements track.values.offset_elements
    [] [] hN hover
  refine ⟨i0, h0, hfit, hbad, ?_⟩
  intro tsOff body acc log
  obtain ⟨i1, h1, hfit1, hbad1, hrun1⟩ := trackLoop_abort K buffSize tsOff body
    hbuf track.timestamps.number 0 track.values.offset_elements track.values.offset_elements
    acc log hN hover
  have : i1 = i0 := by
    rcases Nat.lt_trichotomy i1 i0 with h | h | h
    · have := hfit i1 h
      omega
    · exact h
    · have := hfit1 i0 h
      omega
  rw [hrun1, this]

/-- Witness for C2: a target track of 5 keys of 36 bytes from offset 900 in a buffer of 1000
bytes. -/
theorem readCamera_key_bounds_abort_witness :
    (0 < exCamTruncated.target_positions.timestamps.number ∧
      exCamTruncated.target_positions.values.offset_elements
        + exCamTruncated.target_positions.timestamps.number * 36 > 1000) ∧
    ((readCamera ieeeOps 36 exMem exCamTruncated 1000 exEntry emptyStore).ok = false ∧
    (readCamera ieeeOps 36 exMem exCamTruncated 1000 exEntry emptyStore).store = emptyStore ∧
    ∃ i0, i0 < exCamTruncated.target_positions.timestamps.number ∧
      (∀ j, j < i0 →
        exCamTruncated.target_positions.values.offset_elements + (j + 1) * 36 ≤ 1000) ∧
      exCamTruncated.target_positions.values.offset_elements + (i0 + 1) * 36 > 1000 ∧
      ∀ (tsOff : Nat) (body : Nat → Nat → FlyByCamera XFloat)
        (acc : FlyByCameraCollection XFloat) (log : List Access),
        trackLoop 36 1000 tsOff body exCamTruncated.target_positions.timestamps.number 0
            exCamTruncated.target_positions.values.offset_elements
            exCamTruncated.target_positions.values.offset_elements acc log
          = (none, log ++ keyReads 36 tsOff i0 0
              exCamTruncated.target_positions.values.offset_elements)) :=
  ⟨⟨by decide, by decide⟩,
    readCamera_key_bounds_abort ieeeOps 36 exMem exCamTruncated 1000 exEntry emptyStore
      exCamTruncated.target_positions (Or.inl rfl) (by decide) (by decide) (by decide)⟩

/-- C3: whenever `readCamera` returns false, the store after the call is the store before
the call. -/
theorem readCamera_no_partial_publication {F : Type} (ops : FloatOps F) (K : Nat)
    (mem : Memory F) (cam : M2Camera F) (buffSize : Nat) (dbcentry : CinematicCameraEntry F)
    (store : Store F)
    (h : (readCamera ops K mem cam buffSize dbcentry store).ok = false) :
    (readCamera ops K mem cam buffSize dbcentry store).store = store :=
  readCamera_false_store ops K mem cam buffSize dbcentry store h

/-- Witness for C3: the truncated target track makes `readCamera` return false. -/
theorem readCamera_no_partial_publication_witness :
    (readCamera ieeeOps 36 exMem exCamTruncated 1000 exEntry emptyStore).ok = false ∧
    (readCamera ieeeOps 36 exMem exCamTruncated 1000 exEntry emptyStore).store = emptyStore :=
  ⟨by simp [readCamera, trackLoop, sizeofM2Array, exCamTruncated],
    readCamera_no_partial_publication ieeeOps 36 exMem exCamTruncated 1000 exEntry emptyStore
      (by simp [readCamera, trackLoop, sizeofM2Array, exCamTruncated])⟩

/-- C4: whenever `readCamera` returns true, the collection stored under the ID of the
placement record has as many waypoints as the position track declares. -/
theorem readCamera_length {F : Type} (ops : FloatOps F) (K : Nat) (mem : Memory F)
    (cam : M2Camera F) (buffSize : Nat) (dbcentry : CinematicCameraEntry F) (store : Store F)
    (h : (readCamera ops K mem cam buffSize dbcentry store).ok = true) :
    ∃ cameras, (readCamera ops K mem cam buffSize dbcentry store).store dbcentry.ID
        = some cameras ∧
      cameras.length = cam.positions.timestamps.number := by
  refine ⟨decodedCameras ops K mem cam dbcentry, ?_, ?_⟩
  · rw [readCamera_true_store ops K mem cam buffSize dbcentry store h]
    simp
  · simp [decodedCameras]

/-- Witness for C4: a camera with two position samples and no target sample. -/
theorem readCamera_length_witness :
    (readCamera ieeeOps 36 exMem exCamNoTarget 1000 exEntry emptyStore).ok = true ∧
    ∃ cameras, (readCamera ieeeOps 36 exMem exCamNoTarget 1000 exEntry emptyStore).store
        exEntry.ID = some cameras ∧
      cameras.length = exCamNoTarget.positions.timestamps.number :=
  ⟨by simp [readCamera, trackLoop, sizeofM2Array, exCamNoTarget],
    readCamera_length ieeeOps 36 exMem exCamNoTarget 1000 exEntry emptyStore
      (by simp [readCamera, trackLoop, sizeofM2Array, exCamNoTarget])⟩

/-- C5: whenever `readCamera` returns true, the stored collection has one waypoint per
declared position sample, in file order: the `i`-th waypoint carries the `i`-th `uint32` of
the position timestamp array and the position `TranslateLocation` gives for the anchor and
facing of the placement record, `position_base` and the first three floats of the `i`-th
position spline key. -/
theorem readCamera_waypoints {F : Type} (ops : FloatOps F) (K : Nat) (mem : Memory F)
    (cam : M2Camera F) (buffSize : Nat) (dbcentry : CinematicCameraEntry F) (store : Store F)
    (h : (readCamera ops K mem cam buffSize dbcentry store).ok = true) :
    ∃ cameras, (readCamera ops K mem cam buffSize dbcentry store).store dbcentry.ID
        = some cameras ∧
      cameras.length = cam.positions.timestamps.number ∧
      ∀ i, i < cam.positions.timestamps.number →
        ∃ w, cameras[i]? = some w ∧
          w.timeStamp = mem.readU32 (cam.positions.timestamps.offset_elements + 4 * i) ∧
          (⟨w.locations.x, w.locations.y, w.locations.z⟩ : Vector3 F)
            = TranslateLocation ops
                ⟨dbcentry.Origin.X, dbcentry.Origin.Y, dbcentry.Origin.Z, dbcentry.OriginFacing⟩
                cam.position_base
                (mem.readP0 (cam.positions.values.offset_elements + i * K)) := by
  refine ⟨decodedCameras ops K mem cam dbcentry, ?_, ?_, ?_⟩
  · rw [readCamera_true_store ops K mem cam buffSize dbcentry store h]
    simp
  · simp [decodedCameras]
  · intro i hi
    refine ⟨positionCam ops mem cam (dbcData dbcentry) (decodedTargets ops K mem cam dbcentry) i
      (cam.positions.values.offset_elements + i * K), ?_, ?_, ?_⟩
    · simp [decodedCameras, List.getElem?_map, List.getElem?_range hi]
    · exact positionCam_timeStamp _ _ _ _ _ _ _
    · exact positionCam_position _ _ _ _ _ _ _

/-- Witness for C5: a camera with two position samples and no target sample. -/
theorem readCamera_waypoints_witness :
    (readCamera ieeeOps 36 exMem exCamNoTarget 1000 exEntry emptyStore).ok = true ∧
    ∃ cameras, (readCamera ieeeOps 36 exMem exCamNoTarget 1000 exEntry emptyStore).store
        exEntry.ID = some cameras ∧
      cameras.length = exCamNoTarget.positions.timestamps.number ∧
      ∀ i, i < exCamNoTarget.positions.timestamps.number →
        ∃ w, cameras[i]? = some w ∧
          w.timeStamp
            = exMem.readU32 (exCamNoTarget.positions.timestamps.offset_elements + 4 * i) ∧
          (⟨w.locations.x, w.locations.y, w.locations.z⟩ : Vector3 XFloat)
            = TranslateLocation ieeeOps
                ⟨exEntry.Origin.X, exEntry.Origin.Y, exEntry.Origin.Z, exEntry.OriginFacing⟩
                exCamNoTarget.position_base
                (exMem.readP0 (exCamNoTarget.positions.values.offset_elements + i * 36)) :=
  ⟨by simp [readCamera, trackLoop, sizeofM2Array, exCamNoTarget],
    readCamera_waypoints ieeeOps 36 exMem exCamNoTarget 1000 exEntry emptyStore
      (by simp [readCamera, trackLoop, sizeofM2Array, exCamNoTarget])⟩

/-- C10: whenever `readCamera` returns true and the target track declares no element, every
stored waypoint has facing `0.0`. -/
theorem readCamera_empty_target_facing {F : Type} (ops : FloatOps F) (K : Nat) (mem : Memory F)
    (cam : M2Camera F) (buffSize : Nat) (dbcentry : CinematicCameraEntry F) (store : Store F)
    (h : (readCamera ops K mem cam buffSize dbcentry store).ok = true)
    (hT : cam.target_positions.timestamps.number = 0) :
    ∃ cameras, (readCamera ops K mem cam buffSize dbcentry store).store dbcentry.ID
        = some cameras ∧
      cameras.length = cam.positions.timestamps.number ∧
      ∀ w ∈ cameras, w.locations.w = ops.zero := by
  refine ⟨decodedCameras ops K mem cam dbcentry, ?_, ?_, ?_⟩
  · rw [readCamera_true_store ops K mem cam buffSize dbcentry store h]
    simp
  · simp [decodedCameras]
  · intro w hw
    have hnil : decodedTargets ops K mem cam dbcentry = [] := by
      simp [decodedTargets, hT]
    simp only [decodedCameras, hnil, List.mem_map] at hw
    obtain ⟨j, _, rfl⟩ := hw
    rfl

/-- Witness for C10: a camera with two position samples and no target sample. -/
theorem readCamera_empty_target_facing_witness :
    ((readCamera ieeeOps 36 exMem exCamNoTarget 1000 exEntry emptyStore).ok = true ∧
      exCamNoTarget.target_positions.timestamps.number = 0) ∧
    ∃ cameras, (readCamera ieeeOps 36 exMem exCamNoTarget 1000 exEntry emptyStore).store
        exEntry.ID = some cameras ∧
      cameras.length = exCamNoTarget.positions.timestamps.number ∧
      ∀ w ∈ cameras, w.locations.w = ieeeOps.zero :=
  ⟨⟨by simp [readCamera, trackLoop, sizeofM2Array, exCamNoTarget], rfl⟩,
    readCamera_empty_target_facing ieeeOps 36 exMem exCamNoTarget 1000 exEntry emptyStore
      (by simp [readCamera, trackLoop, sizeofM2Array, exCamNoTarget]) rfl⟩

/-- C8: if the target timestamps are non-decreasing in file order and the timestamp `T` of a
position sample is the timestamp of some target sample, then the scan stops with
`lastTarget` the last target sample in file order whose timestamp is `T`, no interpolation
is made, the target point is that sample's position, and the facing of the position sample
is computed towards that point. -/
theorem exact_timestamp_match {F : Type} (ops : FloatOps F) (first : FlyByCamera F)
    (rest : List (FlyByCamera F)) (T : Nat)
    (hmono : List.Pairwise (fun a b => a.timeStamp ≤ b.timeStamp) (first :: rest))
    (hex : ∃ c ∈ first :: rest, c.timeStamp = T) :
    ∃ pre c post, first :: rest = pre ++ c :: post ∧ c.timeStamp = T ∧
      (∀ d ∈ post, d.timeStamp ≠ T) ∧
      (findBracket T first rest).1 = c ∧
      interpolates (findBracket T first rest).1 T = false ∧
      targetPoint ops (findBracket T first rest).1 (findBracket T first rest).2 T
        = ⟨c.locations.x, c.locations.y, c.locations.z⟩ ∧
      ∀ (mem : Memory F) (cam : M2Camera F) (DBCData : Vector4 F) (i keyPtr : Nat),
        mem.readU32 (cam.positions.timestamps.offset_elements + 4 * i) = T →
        (positionCam ops mem cam DBCData (first :: rest) i keyPtr).locations.w
          = facingTo ops ⟨c.locations.x, c.locations.y, c.locations.z⟩
              (TranslateLocation ops DBCData cam.position_base (mem.readP0 keyPtr)).x
              (TranslateLocation ops DBCData cam.position_base (mem.readP0 keyPtr)).y := by
  obtain ⟨c0, hc0, hT⟩ := hex
  rcases scanTargets_split T (first :: rest) first first hmono with
    ⟨_, h2⟩ | ⟨pre, c, post, h1, h2, h3, h4⟩
  · have := h2 c0 hc0
    omega
  · have hcT : c.timeStamp = T := by
      rw [h1] at hc0 hmono
      rcases List.mem_append.mp hc0 with hm | hm
      · have := (List.pairwise_append.mp hmono).2.2 c0 hm c (List.mem_cons_self _ _)
        omega
      · rcases List.mem_cons.mp hm with rfl | hm
        · exact hT
        · have := h4 c0 hm
          omega
    have hb : (findBracket T first rest).1 = c := h2
    have hi : interpolates (findBracket T first rest).1 T = false := by
      simp [interpolates, hb, hcT]
    have ht : targetPoint ops (findBracket T first rest).1 (findBracket T first rest).2 T
        = ⟨c.locations.x, c.locations.y, c.locations.z⟩ := by
      unfold targetPoint
      rw [hi, hb]
      rfl
    refine ⟨pre, c, post, h1, hcT, ?_, hb, hi, ht, ?_⟩
    · intro d hd
      have := h4 d hd
      omega
    · intro mem cam DBCData i keyPtr hread
      simp only [positionCam, hread, ht]

/-- Witness for C8: target samples with timestamps 10, 20, 20, 30 and a position sample with
timestamp 20. -/
theorem exact_timestamp_match_witness :
    (List.Pairwise (fun a b => a.timeStamp ≤ b.timeStamp)
        ((⟨10, ⟨XFloat.fin 1, XFloat.fin 1, XFloat.fin 1, XFloat.fin 0⟩⟩ : FlyByCamera XFloat) ::
          [⟨20, ⟨XFloat.fin 2, XFloat.fin 2, XFloat.fin 2, XFloat.fin 0⟩⟩,
           ⟨20, ⟨XFloat.fin 3, XFloat.fin 3, XFloat.fin 3, XFloat.fin 0⟩⟩,
           ⟨30, ⟨XFloat.fin 4, XFloat.fin 4, XFloat.fin 4, XFloat.fin 0⟩⟩]) ∧
      ∃ c ∈ (⟨10, ⟨XFloat.fin 1, XFloat.fin 1, XFloat.fin 1, XFloat.fin 0⟩⟩ : FlyByCamera XFloat) ::
          [⟨20, ⟨XFloat.fin 2, XFloat.fin 2, XFloat.fin 2, XFloat.fin 0⟩⟩,
           ⟨20, ⟨XFloat.fin 3, XFloat.fin 3, XFloat.fin 3, XFloat.fin 0⟩⟩,
           ⟨30, ⟨XFloat.fin 4, XFloat.fin 4, XFloat.fin 4, XFloat.fin 0⟩⟩], c.timeStamp = 20) ∧
    targetPoint ieeeOps
        (findBracket 20 (⟨10, ⟨XFloat.fin 1, XFloat.fin 1, XFloat.fin 1, XFloat.fin 0⟩⟩ :
            FlyByCamera XFloat)
          [⟨20, ⟨XFloat.fin 2, XFloat.fin 2, XFloat.fin 2, XFloat.fin 0⟩⟩,
           ⟨20, ⟨XFloat.fin 3, XFloat.fin 3, XFloat.fin 3, XFloat.fin 0⟩⟩,
           ⟨30, ⟨XFloat.fin 4, XFloat.fin 4, XFloat.fin 4, XFloat.fin 0⟩⟩]).1
        (findBracket 20 (⟨10, ⟨XFloat.fin 1, XFloat.fin 1, XFloat.fin 1, XFloat.fin 0⟩⟩ :
            FlyByCamera XFloat)
          [⟨20, ⟨XFloat.fin 2, XFloat.fin 2, XFloat.fin 2, XFloat.fin 0⟩⟩,
           ⟨20, ⟨XFloat.fin 3, XFloat.fin 3, XFloat.fin 3, XFloat.fin 0⟩⟩,
           ⟨30, ⟨XFloat.fin 4, XFloat.fin 4, XFloat.fin 4, XFloat.fin 0⟩⟩]).2 20
      = ⟨XFloat.fin 3, XFloat.fin 3, XFloat.fin 3⟩ := by
  have hmono : List.Pairwise (fun a b => a.timeStamp ≤ b.timeStamp)
      ((⟨10, ⟨XFloat.fin 1, XFloat.fin 1, XFloat.fin 1, XFloat.fin 0⟩⟩ : FlyByCamera XFloat) ::
        [⟨20, ⟨XFloat.fin 2, XFloat.fin 2, XFloat.fin 2, XFloat.fin 0⟩⟩,
         ⟨20, ⟨XFloat.fin 3, XFloat.fin 3, XFloat.fin 3, XFloat.fin 0⟩⟩,
         ⟨30, ⟨XFloat.fin 4, XFloat.fin 4, XFloat.fin 4, XFloat.fin 0⟩⟩]) := by
    simp
  have hex : ∃ c ∈ (⟨10, ⟨XFloat.fin 1, XFloat.fin 1, XFloat.fin 1, XFloat.fin 0⟩⟩ :
        FlyByCamera XFloat) ::
        [⟨20, ⟨XFloat.fin 2, XFloat.fin 2, XFloat.fin 2, XFloat.fin 0⟩⟩,
         ⟨20, ⟨XFloat.fin 3, XFloat.fin 3, XFloat.fin 3, XFloat.fin 0⟩⟩,
         ⟨30, ⟨XFloat.fin 4, XFloat.fin 4, XFloat.fin 4, XFloat.fin 0⟩⟩], c.timeStamp = 20 :=
    ⟨_, List.mem_cons_of_mem _ (List.mem_cons_self _ _), rfl⟩
  refine ⟨⟨hmono, hex⟩, ?_⟩
  obtain ⟨pre, c, post, _, _, _, hb, _, ht, _⟩ :=
    exact_timestamp_match ieeeOps _ _ 20 hmono hex
  rw [ht, ← hb]
  simp [findBracket, scanTargets]

/-- C6 (the code departs from it): with one target sample (timestamp 10, world position the
origin) and position samples with timestamps 5 and 15, the bracket collapses onto the target
sample for both, but the target point is not that sample's position: it is interpolated with
the divisor `float(0)` and is NaN in every coordinate, and so is the stored facing. -/
theorem clamping_outside_range_yields_nan :
    (readCamera ieeeOps 36 exMem exCam 1000 exEntry emptyStore).ok = true ∧
    decodedTargets ieeeOps 36 exMem exCam exEntry
      = [⟨10, ⟨XFloat.fin 0, XFloat.fin 0, XFloat.fin 0, XFloat.fin 0⟩⟩] ∧
    exMem.readU32 (exCam.positions.timestamps.offset_elements + 4 * 0) = 5 ∧
    exMem.readU32 (exCam.positions.timestamps.offset_elements + 4 * 1) = 15 ∧
    targetPoint ieeeOps
        (findBracket 5 ⟨10, ⟨XFloat.fin 0, XFloat.fin 0, XFloat.fin 0, XFloat.fin 0⟩⟩ []).1
        (findBracket 5 ⟨10, ⟨XFloat.fin 0, XFloat.fin 0, XFloat.fin 0, XFloat.fin 0⟩⟩ []).2 5
      = ⟨XFloat.nan, XFloat.nan, XFloat.nan⟩ ∧
    targetPoint ieeeOps
        (findBracket 15 ⟨10, ⟨XFloat.fin 0, XFloat.fin 0, XFloat.fin 0, XFloat.fin 0⟩⟩ []).1
        (findBracket 15 ⟨10, ⟨XFloat.fin 0, XFloat.fin 0, XFloat.fin 0, XFloat.fin 0⟩⟩ []).2 15
      = ⟨XFloat.nan, XFloat.nan, XFloat.nan⟩ ∧
    (readCamera ieeeOps 36 exMem exCam 1000 exEntry emptyStore).store 7
      = some [⟨5, ⟨XFloat.fin 0, XFloat.fin 0, XFloat.fin 0, XFloat.nan⟩⟩,
              ⟨15, ⟨XFloat.fin 0, XFloat.fin 0, XFloat.fin 0, XFloat.nan⟩⟩] := by
  have hlo := targetPoint_collapsed 10 5 (XFloat.fin 0) (by decide) (by decide) (by decide)
  have hhi := targetPoint_collapsed 10 15 (XFloat.fin 0) (by decide) (by decide) (by decide)
  refine ⟨exCam_ok, exCam_targets, ?_, ?_, ?_, ?_, ?_⟩
  · simp [exMem, exCam, Memory.readU32]
  · simp [exMem, exCam, Memory.readU32]
  · simpa [findBracket, scanTargets] using hlo
  · simpa [findBracket, scanTargets] using hhi
  · rw [readCamera_true_store _ _ _ _ _ _ _ exCam_ok]
    have h := translate_zero
    simp only [decodedCameras, exCam_targets]
    simp [positionCam, dbcData, exCam, exEntry, exMem, Memory.readU32, Memory.readP0,
      FlyByCamera.default, List.range_succ, h, findBracket, scanTargets, hlo, hhi, facingTo]
    simp [ieeeOps, XFloat.sub, XFloat.add, XFloat.neg, XFloat.atan2, XFloat.ltZero]

/-- C7 (the code departs from it): with one target sample with timestamp 10 and a position
sample with timestamp 5, the two bracket samples have equal timestamps, yet the guard of the
interpolation holds and the divisor `timeDiffTarget` is 0. -/
theorem interpolation_divides_by_zero :
    (readCamera ieeeOps 36 exMem exCam 1000 exEntry emptyStore).ok = true ∧
    decodedTargets ieeeOps 36 exMem exCam exEntry
      = [⟨10, ⟨XFloat.fin 0, XFloat.fin 0, XFloat.fin 0, XFloat.fin 0⟩⟩] ∧
    exMem.readU32 (exCam.positions.timestamps.offset_elements + 4 * 0) = 5 ∧
    (findBracket 5 (⟨10, ⟨XFloat.fin 0, XFloat.fin 0, XFloat.fin 0, XFloat.fin 0⟩⟩ :
        FlyByCamera XFloat) []).1.timeStamp
      = (findBracket 5 (⟨10, ⟨XFloat.fin 0, XFloat.fin 0, XFloat.fin 0, XFloat.fin 0⟩⟩ :
        FlyByCamera XFloat) []).2.timeStamp ∧
    interpolates (findBracket 5 (⟨10, ⟨XFloat.fin 0, XFloat.fin 0, XFloat.fin 0, XFloat.fin 0⟩⟩ :
        FlyByCamera XFloat) []).1 5 = true ∧
    timeDiffTarget
        (findBracket 5 (⟨10, ⟨XFloat.fin 0, XFloat.fin 0, XFloat.fin 0, XFloat.fin 0⟩⟩ :
          FlyByCamera XFloat) []).1
        (findBracket 5 (⟨10, ⟨XFloat.fin 0, XFloat.fin 0, XFloat.fin 0, XFloat.fin 0⟩⟩ :
          FlyByCamera XFloat) []).2 = 0 := by
  refine ⟨exCam_ok, exCam_targets, ?_, ?_, ?_, ?_⟩
  · simp [exMem, exCam, Memory.readU32]
  · simp [findBracket, scanTargets]
  · simp [findBracket, scanTargets, interpolates]
  · simp [findBracket, scanTargets, timeDiffTarget, subU32]

/-- C9, as stated, fails: when the floats of the file are NaN, `readCamera` returns true on a
camera with one target sample and stores a waypoint whose facing is not a number in
`[0, 2π)`. -/
theorem facing_range_fails_on_nan :
    (readCamera ieeeOps 36 nanMem exCam 1000 exEntry emptyStore).ok = true ∧
    exCam.target_positions.timestamps.number = 1 ∧
    ∃ cameras w, (readCamera ieeeOps 36 nanMem exCam 1000 exEntry emptyStore).store exEntry.ID
        = some cameras ∧ w ∈ cameras ∧ ¬ XFloat.inFacingRange w.locations.w := by
  refine ⟨exCam_nan_ok, rfl, decodedCameras ieeeOps 36 nanMem exCam exEntry,
    ⟨0, ⟨XFloat.nan, XFloat.nan, XFloat.nan, XFloat.nan⟩⟩, ?_, ?_, ?_⟩
  · rw [readCamera_true_store _ _ _ _ _ _ _ exCam_nan_ok]
    simp
  · have h := translate_nan
    simp [decodedCameras, decodedTargets, positionCam, targetCam, dbcData, exCam, exEntry,
      nanMem, Memory.readU32, Memory.readP0, FlyByCamera.default, List.range_succ, h,
      findBracket, scanTargets, targetPoint, interpolates, facingTo]
    simp [ieeeOps, XFloat.sub, XFloat.add, XFloat.neg, XFloat.atan2, XFloat.ltZero]
  · simp [XFloat.inFacingRange]

/-- C9, amended: whenever `readCamera` returns true and the target track is not empty, every
stored waypoint has the facing `facingTo` computes from its target point, and when neither
difference `targetX - camX`, `targetY - camY` is NaN that facing is a finite number `w` with
`0 ≤ w ≤ 2 * float(M_PI)`; this holds in every arithmetic with the properties `FloatLaws`.
The bound `2 * float(M_PI)` can be reached: it is what a small negative `atan2` plus
`2 * float(M_PI)` rounds to. -/
theorem readCamera_facing_range {F : Type} (ops : FloatOps F) (view : FloatView F)
    (laws : FloatLaws ops view) (K : Nat) (mem : Memory F) (cam : M2Camera F)
    (buffSize : Nat) (dbcentry : CinematicCameraEntry F) (store : Store F)
    (h : (readCamera ops K mem cam buffSize dbcentry store).ok = true)
    (hT : cam.target_positions.timestamps.number ≠ 0) :
    ∃ cameras first rest,
      (readCamera ops K mem cam buffSize dbcentry store).store dbcentry.ID = some cameras ∧
      cameras.length = cam.positions.timestamps.number ∧
      decodedTargets ops K mem cam dbcentry = first :: rest ∧
      ∀ w ∈ cameras,
        w.locations.w
          = facingTo ops
              (targetPoint ops (findBracket w.timeStamp first rest).1
                (findBracket w.timeStamp first rest).2 w.timeStamp)
              w.locations.x w.locations.y ∧
        (¬ view.isNaN (ops.sub
            (targetPoint ops (findBracket w.timeStamp first rest).1
              (findBracket w.timeStamp first rest).2 w.timeStamp).x w.locations.x) →
          ¬ view.isNaN (ops.sub
            (targetPoint ops (findBracket w.timeStamp first rest).1
              (findBracket w.timeStamp first rest).2 w.timeStamp).y w.locations.y) →
          view.isNum w.locations.w ∧ 0 ≤ view.val w.locations.w ∧
            view.val w.locations.w ≤ 2 * view.val ops.pi) := by
  obtain ⟨n, hn⟩ := Nat.exists_eq_succ_of_ne_zero hT
  have hcons : ∃ first rest, decodedTargets ops K mem cam dbcentry = first :: rest := by
    simp [decodedTargets, hn, List.range_succ_eq_map]
  obtain ⟨first, rest, hfr⟩ := hcons
  refine ⟨decodedCameras ops K mem cam dbcentry, first, rest, ?_, ?_, hfr, ?_⟩
  · rw [readCamera_true_store ops K mem cam buffSize dbcentry store h]
    simp
  · simp [decodedCameras]
  · intro w hw
    simp only [decodedCameras, hfr, List.mem_map] at hw
    obtain ⟨j, _, rfl⟩ := hw
    have hw : (positionCam ops mem cam (dbcData dbcentry) (first :: rest) j
        (cam.positions.values.offset_elements + j * K)).locations.w
          = facingTo ops
              (targetPoint ops
                (findBracket (positionCam ops mem cam (dbcData dbcentry) (first :: rest) j
                  (cam.positions.values.offset_elements + j * K)).timeStamp first rest).1
                (findBracket (positionCam ops mem cam (dbcData dbcentry) (first :: rest) j
                  (cam.positions.values.offset_elements + j * K)).timeStamp first rest).2
                (positionCam ops mem cam (dbcData dbcentry) (first :: rest) j
                  (cam.positions.values.offset_elements + j * K)).timeStamp)
              (positionCam ops mem cam (dbcData dbcentry) (first :: rest) j
                (cam.positions.values.offset_elements + j * K)).locations.x
              (positionCam ops mem cam (dbcData dbcentry) (first :: rest) j
                (cam.positions.values.offset_elements + j * K)).locations.y := rfl
    refine ⟨hw, ?_⟩
    intro hx hy
    rw [hw]
    exact facingTo_bounds ops view laws _ _ _ hx hy

theorem exCamFacing_ok :
    (readCamera ieeeOps 36 exMemFacing exCam 1000 exEntry emptyStore).ok = true := by
  simp [readCamera, trackLoop, sizeofM2Array, exCam]

theorem translate_down :
    TranslateLocation ieeeOps ⟨XFloat.fin 0, XFloat.fin 0, XFloat.fin 0, XFloat.fin 0⟩
      ⟨XFloat.fin 0, XFloat.fin 0, XFloat.fin 0⟩ ⟨XFloat.fin 0, XFloat.fin (-1), XFloat.fin 0⟩
      = ⟨XFloat.fin 0, XFloat.fin (-1), XFloat.fin 0⟩ := by
  have harg : Complex.arg ⟨-1, 0⟩ = Real.pi := by
    rw [Complex.arg_eq_pi_iff]
    constructor <;> norm_num
  have hpi := Real.pi_pos
  have h10 : ¬ ((1 : ℝ) < 0) := by norm_num
  simp [TranslateLocation, ieeeOps, XFloat.add, XFloat.sub, XFloat.mul, XFloat.sqrt,
    XFloat.atan2, XFloat.sin, XFloat.cos, XFloat.ltZero, XFloat.neg, harg, hpi.not_lt, h10]

theorem exCamFacing_store :
    (readCamera ieeeOps 36 exMemFacing exCam 1000 exEntry emptyStore).store 7
      = some [⟨0, ⟨XFloat.fin 0, XFloat.fin 0, XFloat.fin 0, XFloat.fin (3 * Real.pi / 2)⟩⟩,
              ⟨0, ⟨XFloat.fin 0, XFloat.fin 0, XFloat.fin 0, XFloat.fin (3 * Real.pi / 2)⟩⟩] := by
  rw [readCamera_true_store _ _ _ _ _ _ _ exCamFacing_ok]
  have hz := translate_zero
  have hd := translate_down
  have harg : Complex.arg ⟨0 + -0, -1 + -0⟩ = -(Real.pi / 2) := by
    rw [Complex.arg_eq_neg_pi_div_two_iff]
    constructor <;> norm_num
  have hpi := Real.pi_pos
  have hlt : -(Real.pi / 2) < 0 := by linarith
  have htargets : decodedTargets ieeeOps 36 exMemFacing exCam exEntry
      = [⟨0, ⟨XFloat.fin 0, XFloat.fin (-1), XFloat.fin 0, XFloat.fin 0⟩⟩] := by
    simp [decodedTargets, targetCam, dbcData, exCam, exEntry, exMemFacing, Memory.readU32,
      Memory.readP0, FlyByCamera.default, List.range_succ, hd]
    simp [ieeeOps]
  simp only [decodedCameras, htargets]
  simp [positionCam, dbcData, exCam, exEntry, exMemFacing, Memory.readU32, Memory.readP0,
    FlyByCamera.default, List.range_succ, hz, findBracket, scanTargets, targetPoint,
    interpolates, facingTo]
  simp only [ieeeOps, XFloat.sub, XFloat.add, XFloat.neg, XFloat.atan2, XFloat.ltZero,
    XFloat.mul, harg, hlt, decide_True, if_true]
  norm_num
  ring

/-- Witness for the amended C9: one target sample at `(0, -1, 0)` and two position samples
at the origin, all with timestamp 0; both stored facings are the number `3π/2`. -/
theorem readCamera_facing_range_witness :
    ((readCamera ieeeOps 36 exMemFacing exCam 1000 exEntry emptyStore).ok = true ∧
      exCam.target_positions.timestamps.number ≠ 0) ∧
    (readCamera ieeeOps 36 exMemFacing exCam 1000 exEntry emptyStore).store 7
      = some [⟨0, ⟨XFloat.fin 0, XFloat.fin 0, XFloat.fin 0, XFloat.fin (3 * Real.pi / 2)⟩⟩,
              ⟨0, ⟨XFloat.fin 0, XFloat.fin 0, XFloat.fin 0, XFloat.fin (3 * Real.pi / 2)⟩⟩] ∧
    ∃ cameras first rest,
      (readCamera ieeeOps 36 exMemFacing exCam 1000 exEntry emptyStore).store exEntry.ID
        = some cameras ∧
      cameras.length = exCam.positions.timestamps.number ∧
      decodedTargets ieeeOps 36 exMemFacing exCam exEntry = first :: rest ∧
      ∀ w ∈ cameras,
        w.locations.w
          = facingTo ieeeOps
              (targetPoint ieeeOps (findBracket w.timeStamp first rest).1
                (findBracket w.timeStamp first rest).2 w.timeStamp)
              w.locations.x w.locations.y ∧
        (¬ XFloat.view.isNaN (ieeeOps.sub
            (targetPoint ieeeOps (findBracket w.timeStamp first rest).1
              (findBracket w.timeStamp first rest).2 w.timeStamp).x w.locations.x) →
          ¬ XFloat.view.isNaN (ieeeOps.sub
            (targetPoint ieeeOps (findBracket w.timeStamp first rest).1
              (findBracket w.timeStamp first rest).2 w.timeStamp).y w.locations.y) →
          XFloat.view.isNum w.locations.w ∧ 0 ≤ XFloat.view.val w.locations.w ∧
            XFloat.view.val w.locations.w ≤ 2 * XFloat.view.val ieeeOps.pi) :=
  ⟨⟨exCamFacing_ok, by decide⟩, exCamFacing_store,
    readCamera_facing_range ieeeOps XFloat.view ieeeOps_laws 36 exMemFacing exCam 1000 exEntry
      emptyStore exCamFacing_ok (by decide)⟩

/-! ## `TranslateLocation` over the reals -/

theorem polar_sin (x y : ℝ) :
    Real.sqrt (x * x + y * y) * Real.sin (Complex.arg ⟨y, x⟩) = x := by
  have habs : Complex.abs ⟨y, x⟩ = Real.sqrt (x * x + y * y) := by
    rw [Complex.abs_apply, Complex.normSq_mk, add_comm]
  rw [Complex.sin_arg, habs]
  by_cases h : Real.sqrt (x * x + y * y) = 0
  · have hnn : 0 ≤ x * x + y * y := add_nonneg (mul_self_nonneg x) (mul_self_nonneg y)
    have h0 : x * x + y * y = 0 := (Real.sqrt_eq_zero hnn).mp h
    have hx : x = 0 := by nlinarith [mul_self_nonneg x, mul_self_nonneg y]
    simp [hx]
  · simp only [Complex.im]
    field_simp

theorem polar_cos (x y : ℝ) :
    Real.sqrt (x * x + y * y) * Real.cos (Complex.arg ⟨y, x⟩) = y := by
  have habs : Complex.abs ⟨y, x⟩ = Real.sqrt (x * x + y * y) := by
    rw [Complex.abs_apply, Complex.normSq_mk, add_comm]
  by_cases h : Real.sqrt (x * x + y * y) = 0
  · have hnn : 0 ≤ x * x + y * y := add_nonneg (mul_self_nonneg x) (mul_self_nonneg y)
    have h0 : x * x + y * y = 0 := (Real.sqrt_eq_zero hnn).mp h
    have hy : y = 0 := by nlinarith [mul_self_nonneg x, mul_self_nonneg y]
    rw [h, hy]
    simp
  · have hz : (⟨y, x⟩ : ℂ) ≠ 0 := by
      intro hz
      apply h
      rw [← habs, hz]
      simp
    rw [Complex.cos_arg hz, habs]
    simp only [Complex.re]
    field_simp

/-- The value of `TranslateLocation` over the reals, with the angle as computed. -/
theorem translate_real_unfold (a : Vector4 ℝ) (b l : Vector3 ℝ) :
    TranslateLocation realOps a b l
      = ⟨a.x + Real.sqrt ((b.x + l.x) * (b.x + l.x) + (b.y + l.y) * (b.y + l.y))
            * Real.sin (Complex.arg ⟨b.y + l.y, b.x + l.x⟩ - a.w),
         a.y + Real.sqrt ((b.x + l.x) * (b.x + l.x) + (b.y + l.y) * (b.y + l.y))
            * Real.cos (Complex.arg ⟨b.y + l.y, b.x + l.x⟩ - a.w),
         a.z + (b.z + l.z)⟩ := by
  unfold TranslateLocation
  simp only [realOps]
  by_cases h : Complex.arg ⟨b.y + l.y, b.x + l.x⟩ - a.w < 0
  · simp only [h, decide_True, if_true]
    push_cast
    rw [Real.sin_add_two_pi, Real.cos_add_two_pi]
  · simp only [h, decide_False, Bool.false_eq_true, if_false]

theorem translate_real (a : Vector4 ℝ) (b l : Vector3 ℝ) :
    TranslateLocation realOps a b l
      = ⟨a.x + (b.x + l.x) * Real.cos a.w - (b.y + l.y) * Real.sin a.w,
         a.y + (b.y + l.y) * Real.cos a.w + (b.x + l.x) * Real.sin a.w,
         a.z + (b.z + l.z)⟩ := by
  rw [translate_real_unfold]
  have hs := polar_sin (b.x + l.x) (b.y + l.y)
  have hc := polar_cos (b.x + l.x) (b.y + l.y)
  rw [Real.sin_sub, Real.cos_sub]
  congr 1
  · linear_combination (Real.cos a.w) * hs - (Real.sin a.w) * hc
  · linear_combination (Real.cos a.w) * hc + (Real.sin a.w) * hs

theorem ieee_add_zero_mul (a d : XFloat) (hd : d = XFloat.fin 0) (t : ℝ) :
    XFloat.add a (XFloat.mul d (XFloat.fin t)) = a := by
  subst hd
  cases a <;> simp [XFloat.add, XFloat.mul]

/-- C11: `TranslateLocation` with anchor facing 0, base `(0,0,0)` and local vector `(0,0,0)`
returns the anchor, over the reals and, for every anchor (infinite and NaN coordinates
included), in the arithmetic `ieeeOps`. -/
theorem translate_zero_offset :
    (∀ ax ay az : ℝ,
      TranslateLocation realOps ⟨ax, ay, az, 0⟩ ⟨0, 0, 0⟩ ⟨0, 0, 0⟩ = ⟨ax, ay, az⟩) ∧
    (∀ ax ay az : XFloat,
      TranslateLocation ieeeOps ⟨ax, ay, az, XFloat.fin 0⟩
        ⟨XFloat.fin 0, XFloat.fin 0, XFloat.fin 0⟩ ⟨XFloat.fin 0, XFloat.fin 0, XFloat.fin 0⟩
        = ⟨ax, ay, az⟩) := by
  constructor
  · intro ax ay az
    rw [translate_real]
    simp
  · intro ax ay az
    have hd : XFloat.sqrt (XFloat.add (XFloat.mul (XFloat.add (XFloat.fin 0) (XFloat.fin 0))
        (XFloat.add (XFloat.fin 0) (XFloat.fin 0)))
        (XFloat.mul (XFloat.add (XFloat.fin 0) (XFloat.fin 0))
        (XFloat.add (XFloat.fin 0) (XFloat.fin 0)))) = XFloat.fin 0 := by
      simp [XFloat.add, XFloat.mul, XFloat.sqrt]
    have ha : XFloat.sub (XFloat.atan2 (XFloat.add (XFloat.fin 0) (XFloat.fin 0))
        (XFloat.add (XFloat.fin 0) (XFloat.fin 0))) (XFloat.fin 0) = XFloat.fin 0 := by
      have h0 : (⟨0, 0⟩ : ℂ) = 0 := rfl
      simp [XFloat.add, XFloat.sub, XFloat.neg, XFloat.atan2, h0]
    have hz : XFloat.add az (XFloat.add (XFloat.fin 0) (XFloat.fin 0)) = az := by
      cases az <;> simp [XFloat.add]
    unfold TranslateLocation
    simp only [ieeeOps, hd, ha, XFloat.ltZero, lt_self_iff_false, decide_False,
      Bool.false_eq_true, if_false, XFloat.sin, XFloat.cos, hz]
    rw [ieee_add_zero_mul ax _ rfl, ieee_add_zero_mul ay _ rfl]

/-- C19: over the reals `TranslateLocation` rotates `(x, y, z) = base + local` about the
vertical axis by the anchor facing and translates it by the anchor; the horizontal distance
of the result from the anchor is `sqrt(x^2 + y^2)`; and the result is what the angle
`atan2(x, y) - facing` gives without the conditional addition of `2π`. -/
theorem translate_is_rotation (ax ay az f bx byy bz lx ly lz : ℝ) :
    TranslateLocation realOps ⟨ax, ay, az, f⟩ ⟨bx, byy, bz⟩ ⟨lx, ly, lz⟩
      = ⟨ax + (bx + lx) * Real.cos f - (byy + ly) * Real.sin f,
         ay + (byy + ly) * Real.cos f + (bx + lx) * Real.sin f,
         az + (bz + lz)⟩ ∧
    Real.sqrt (((TranslateLocation realOps ⟨ax, ay, az, f⟩ ⟨bx, byy, bz⟩ ⟨lx, ly, lz⟩).x - ax) ^ 2
        + ((TranslateLocation realOps ⟨ax, ay, az, f⟩ ⟨bx, byy, bz⟩ ⟨lx, ly, lz⟩).y - ay) ^ 2)
      = Real.sqrt ((bx + lx) ^ 2 + (byy + ly) ^ 2) ∧
    TranslateLocation realOps ⟨ax, ay, az, f⟩ ⟨bx, byy, bz⟩ ⟨lx, ly, lz⟩
      = ⟨ax + Real.sqrt ((bx + lx) * (bx + lx) + (byy + ly) * (byy + ly))
            * Real.sin (Complex.arg ⟨byy + ly, bx + lx⟩ - f),
         ay + Real.sqrt ((bx + lx) * (bx + lx) + (byy + ly) * (byy + ly))
            * Real.cos (Complex.arg ⟨byy + ly, bx + lx⟩ - f),
         az + (bz + lz)⟩ := by
  refine ⟨translate_real _ _ _, ?_, translate_real_unfold _ _ _⟩
  rw [translate_real]
  congr 1
  have h := Real.sin_sq_add_cos_sq f
  simp only
  nlinarith [h]

/-! ## The bracket of a timestamp inside the target range -/

theorem scanTargets_bracket {F : Type} (T : Nat) :
    ∀ (l : List (FlyByCamera F)) (last0 next0 : FlyByCamera F),
      last0.timeStamp ≤ T → (∃ c ∈ l, T < c.timeStamp) →
      ∃ pre lastTarget nextTarget post,
        last0 :: l = pre ++ lastTarget :: nextTarget :: post ∧
        scanTargets T l last0 next0 = (lastTarget, nextTarget) ∧
        (∀ d ∈ pre, d.timeStamp ≤ T) ∧ lastTarget.timeStamp ≤ T ∧ T < nextTarget.timeStamp := by
  intro l
  induction l with
  | nil =>
    intro last0 next0 _ h
    obtain ⟨c, hc, _⟩ := h
    simp at hc
  | cons c rest ih =>
    intro last0 next0 h0 h
    by_cases hc : c.timeStamp > T
    · exact ⟨[], last0, c, rest, rfl, by simp [scanTargets, hc], by simp, h0, hc⟩
    · have hrest : ∃ c' ∈ rest, T < c'.timeStamp := by
        obtain ⟨c', hm, hlt⟩ := h
        rcases List.mem_cons.mp hm with rfl | hm
        · omega
        · exact ⟨c', hm, hlt⟩
      obtain ⟨pre, lastTarget, nextTarget, post, h1, h2, h3, h4, h5⟩ :=
        ih c c (by omega) hrest
      refine ⟨last0 :: pre, lastTarget, nextTarget, post, by simp [h1], ?_, ?_, h4, h5⟩
      · simp [scanTargets, hc, h2]
      · intro d hd
        rcases List.mem_cons.mp hd with rfl | hd
        · exact h0
        · exact h3 d hd

/-! ## The success condition of `readCamera` -/

theorem trackLoop_fits {F : Type} (K buffSize tsOff : Nat) (body : Nat → Nat → FlyByCamera F)
    (hbuf : buffSize < 4294967296) :
    ∀ (n i currPos keyPtr : Nat) (acc : FlyByCameraCollection F) (log : List Access),
      currPos + n * K ≤ buffSize →
      ∃ l log1, trackLoop K buffSize tsOff body n i currPos keyPtr acc log = (some l, log1) := by
  intro n
  induction n with
  | zero =>
    intro i currPos keyPtr acc log _
    exact ⟨acc, log, rfl⟩
  | succ n ih =>
    intro i currPos keyPtr acc log h
    have hs : (n + 1) * K = n * K + K := Nat.succ_mul n K
    have hk : ¬ (currPos + K > buffSize) := by omega
    have hmod : (currPos + K) % 4294967296 = currPos + K := Nat.mod_eq_of_lt (by omega)
    rw [trackLoop]
    simp only [hk, if_false, hmod]
    exact ih _ _ _ _ _ (by omega)

theorem trackLoop_isSome_iff {F : Type} (K buffSize tsOff : Nat)
    (body : Nat → Nat → FlyByCamera F) (hbuf : buffSize < 4294967296)
    (n o : Nat) (acc : FlyByCameraCollection F) (log : List Access) :
    (∃ l log1, trackLoop K buffSize tsOff body n 0 o o acc log = (some l, log1)) ↔
      (n = 0 ∨ o + n * K ≤ buffSize) := by
  constructor
  · rintro ⟨l, log1, h⟩
    by_cases hn : n = 0
    · exact Or.inl hn
    · right
      by_contra hover
      obtain ⟨i0, _, _, _, hrun⟩ := trackLoop_abort K buffSize tsOff body hbuf n 0 o o acc log
        (by omega) (by omega)
      rw [hrun] at h
      simp at h
  · rintro (hn | hfit)
    · subst hn
      exact ⟨acc, log, rfl⟩
    · exact trackLoop_fits K buffSize tsOff body hbuf n 0 o o acc log hfit

theorem readCamera_ok_iff {F : Type} (ops : FloatOps F) (K : Nat) (mem : Memory F)
    (cam : M2Camera F) (buffSize : Nat) (dbcentry : CinematicCameraEntry F) (store : Store F)
    (hbuf : buffSize < 4294967296) :
    (readCamera ops K mem cam buffSize dbcentry store).ok = true ↔
      (cam.target_positions.timestamps.offset_elements + 8 ≤ buffSize ∧
       (cam.target_positions.timestamps.number = 0 ∨
        cam.target_positions.values.offset_elements
          + cam.target_positions.timestamps.number * K ≤ buffSize) ∧
       cam.positions.timestamps.offset_elements + 8 ≤ buffSize ∧
       (cam.positions.timestamps.number = 0 ∨
        cam.positions.values.offset_elements
          + cam.positions.timestamps.number * K ≤ buffSize)) := by
  unfold readCamera
  dsimp only
  split
  · rename_i h1
    simp only [sizeofM2Array] at h1
    constructor
    · intro h
      simp at h
    · rintro ⟨h, _⟩
      omega
  · rename_i h1
    simp only [sizeofM2Array] at h1
    split
    · rename_i _ log1 h2
      constructor
      · intro h
        simp at h
      · rintro ⟨_, hT, _⟩
        obtain ⟨l, log2, h3⟩ := (trackLoop_isSome_iff K buffSize _ _ hbuf _ _ [] []).mpr hT
        rw [h3] at h2
        simp at h2
    · rename_i _ targetcam log1 h2
      have hT := (trackLoop_isSome_iff K buffSize _ _ hbuf _ _ [] []).mp ⟨_, _, h2⟩
      split
      · rename_i h3
        simp only [sizeofM2Array] at h3
        constructor
        · intro h
          simp at h
        · rintro ⟨_, _, h, _⟩
          omega
      · rename_i h3
        simp only [sizeofM2Array] at h3
        split
        · rename_i _ log2 h4
          constructor
          · intro h
            simp at h
          · rintro ⟨_, _, _, hP⟩
            obtain ⟨l, log3, h5⟩ :=
              (trackLoop_isSome_iff K buffSize _ _ hbuf _ _ [] log1).mpr hP
            rw [h5] at h4
            simp at h4
        · rename_i _ cameras log2 h4
          have hP := (trackLoop_isSome_iff K buffSize _ _ hbuf _ _ [] log1).mp ⟨_, _, h4⟩
          constructor
          · intro _
            exact ⟨by omega, hT, by omega, hP⟩
          · intro _
            rfl

/-- C17, as stated, fails: with target samples at timestamps 0 and `2^25` and the position
timestamp `2^25 - 1`, the bracket is the two samples and the differences are exact, but
`float(2^25 - 1)` rounds to `2^25`, so the fraction is exactly 1, not below 1, and the target
point is the position of `nextTarget`.  Evaluated with the conversion rounded as binary32
rounds it. -/
theorem bracket_fraction_reaches_one :
    findBracket 33554431
        (⟨0, ⟨XFloat.fin 0, XFloat.fin 0, XFloat.fin 0, XFloat.fin 0⟩⟩ : FlyByCamera XFloat)
        [⟨33554432, ⟨XFloat.fin 1, XFloat.fin 0, XFloat.fin 0, XFloat.fin 0⟩⟩]
      = (⟨0, ⟨XFloat.fin 0, XFloat.fin 0, XFloat.fin 0, XFloat.fin 0⟩⟩,
         ⟨33554432, ⟨XFloat.fin 1, XFloat.fin 0, XFloat.fin 0, XFloat.fin 0⟩⟩) ∧
    timeDiffThis
        (⟨0, ⟨XFloat.fin 0, XFloat.fin 0, XFloat.fin 0, XFloat.fin 0⟩⟩ : FlyByCamera XFloat)
        33554431 = 33554431 ∧
    timeDiffTarget
        (⟨0, ⟨XFloat.fin 0, XFloat.fin 0, XFloat.fin 0, XFloat.fin 0⟩⟩ : FlyByCamera XFloat)
        ⟨33554432, ⟨XFloat.fin 1, XFloat.fin 0, XFloat.fin 0, XFloat.fin 0⟩⟩ = 33554432 ∧
    roundedOps.ofNat 33554431 = XFloat.fin 33554432 ∧
    roundedOps.div (roundedOps.ofNat 33554431) (roundedOps.ofNat 33554432) = XFloat.fin 1 ∧
    targetPoint roundedOps
        ⟨0, ⟨XFloat.fin 0, XFloat.fin 0, XFloat.fin 0, XFloat.fin 0⟩⟩
        ⟨33554432, ⟨XFloat.fin 1, XFloat.fin 0, XFloat.fin 0, XFloat.fin 0⟩⟩ 33554431
      = ⟨XFloat.fin 1, XFloat.fin 0, XFloat.fin 0⟩ := by
  have h1 : roundToFloat 33554431 = 33554432 := by decide
  have h2 : roundToFloat 33554432 = 33554432 := by decide
  have hthis : subU32 33554431 0 = 33554431 := by decide
  have htarget : subU32 33554432 0 = 33554432 := by decide
  have hdiv : roundedOps.div (roundedOps.ofNat 33554431) (roundedOps.ofNat 33554432)
      = XFloat.fin 1 := by
    simp [roundedOps, ieeeOps, h1, h2, XFloat.div]
  refine ⟨by simp [findBracket, scanTargets], hthis, htarget, ?_, hdiv, ?_⟩
  · simp [roundedOps, h1]
  · have hint : interpolates
        (⟨0, ⟨XFloat.fin 0, XFloat.fin 0, XFloat.fin 0, XFloat.fin 0⟩⟩ : FlyByCamera XFloat)
        33554431 = true := by decide
    simp only [targetPoint, hint, if_true, timeDiffThis, timeDiffTarget, hthis, htarget, hdiv]
    simp [roundedOps, ieeeOps, XFloat.sub, XFloat.add, XFloat.neg, XFloat.mul]

/-- C17, amended: for a non-empty target track and a position timestamp `T` with
`t_first ≤ T < t_last` (timestamps being `uint32` values), the scan ends with `nextTarget`
the first target sample whose timestamp exceeds `T` and `lastTarget` the sample just before
it, so `lastTarget.timeStamp ≤ T < nextTarget.timeStamp`; the two `uint32` differences do
not wrap and the divisor is positive; the target point is `lastTarget`'s position when
`T` is its timestamp and otherwise the interpolation with the fraction
`float(T - tLow) / float(tHigh - tLow)`, which, in every arithmetic with the properties
`FloatLaws`, is a finite number in `[0, 1]`.  That the timestamps are non-decreasing is not
needed. -/
theorem bracket_search {F : Type} (ops : FloatOps F) (view : FloatView F)
    (laws : FloatLaws ops view) (first : FlyByCamera F) (rest : List (FlyByCamera F)) (T : Nat)
    (hlo : first.timeStamp ≤ T)
    (hhi : ∃ c, (first :: rest).getLast? = some c ∧ T < c.timeStamp)
    (hu32 : ∀ c ∈ first :: rest, c.timeStamp < 4294967296) :
    ∃ pre lastTarget nextTarget post,
      first :: rest = pre ++ lastTarget :: nextTarget :: post ∧
      findBracket T first rest = (lastTarget, nextTarget) ∧
      (∀ d ∈ pre, d.timeStamp ≤ T) ∧
      lastTarget.timeStamp ≤ T ∧ T < nextTarget.timeStamp ∧
      timeDiffThis lastTarget T + lastTarget.timeStamp = T ∧
      timeDiffTarget lastTarget nextTarget + lastTarget.timeStamp = nextTarget.timeStamp ∧
      0 < timeDiffTarget lastTarget nextTarget ∧
      targetPoint ops (findBracket T first rest).1 (findBracket T first rest).2 T
        = (if lastTarget.timeStamp = T then
            ⟨lastTarget.locations.x, lastTarget.locations.y, lastTarget.locations.z⟩
          else
            ⟨ops.add lastTarget.locations.x
               (ops.mul (ops.sub nextTarget.locations.x lastTarget.locations.x)
                 (ops.div (ops.ofNat (T - lastTarget.timeStamp))
                   (ops.ofNat (nextTarget.timeStamp - lastTarget.timeStamp)))),
             ops.add lastTarget.locations.y
               (ops.mul (ops.sub nextTarget.locations.y lastTarget.locations.y)
                 (ops.div (ops.ofNat (T - lastTarget.timeStamp))
                   (ops.ofNat (nextTarget.timeStamp - lastTarget.timeStamp)))),
             ops.add lastTarget.locations.z
               (ops.mul (ops.sub nextTarget.locations.z lastTarget.locations.z)
                 (ops.div (ops.ofNat (T - lastTarget.timeStamp))
                   (ops.ofNat (nextTarget.timeStamp - lastTarget.timeStamp))))⟩) ∧
      view.isNum (ops.div (ops.ofNat (T - lastTarget.timeStamp))
        (ops.ofNat (nextTarget.timeStamp - lastTarget.timeStamp))) ∧
      0 ≤ view.val (ops.div (ops.ofNat (T - lastTarget.timeStamp))
        (ops.ofNat (nextTarget.timeStamp - lastTarget.timeStamp))) ∧
      view.val (ops.div (ops.ofNat (T - lastTarget.timeStamp))
        (ops.ofNat (nextTarget.timeStamp - lastTarget.timeStamp))) ≤ 1 := by
  obtain ⟨c, hc, hcT⟩ := hhi
  have hmem : c ∈ first :: rest := List.mem_of_getLast?_eq_some hc
  have hrest : ∃ c' ∈ rest, T < c'.timeStamp := by
    rcases List.mem_cons.mp hmem with rfl | hm
    · omega
    · exact ⟨c, hm, hcT⟩
  obtain ⟨pre, lastTarget, nextTarget, post, h1, h2, h3, h4, h5⟩ :=
    scanTargets_bracket T rest first first hlo hrest
  have hnext : nextTarget.timeStamp < 4294967296 := by
    apply hu32
    rw [h1]
    simp
  have hscan : findBracket T first rest = (lastTarget, nextTarget) := by
    have hf : ¬ (first.timeStamp > T) := by omega
    simp [findBracket, scanTargets, hf, h2]
  have hthis : timeDiffThis lastTarget T = T - lastTarget.timeStamp := by
    unfold timeDiffThis subU32
    omega
  have htarget : timeDiffTarget lastTarget nextTarget
      = nextTarget.timeStamp - lastTarget.timeStamp := by
    unfold timeDiffTarget subU32
    omega
  have hpos : 0 < timeDiffTarget lastTarget nextTarget := by omega
  have hpoint : targetPoint ops (findBracket T first rest).1 (findBracket T first rest).2 T
      = (if lastTarget.timeStamp = T then
          ⟨lastTarget.locations.x, lastTarget.locations.y, lastTarget.locations.z⟩
        else
          ⟨ops.add lastTarget.locations.x
             (ops.mul (ops.sub nextTarget.locations.x lastTarget.locations.x)
               (ops.div (ops.ofNat (T - lastTarget.timeStamp))
                 (ops.ofNat (nextTarget.timeStamp - lastTarget.timeStamp)))),
           ops.add lastTarget.locations.y
             (ops.mul (ops.sub nextTarget.locations.y lastTarget.locations.y)
               (ops.div (ops.ofNat (T - lastTarget.timeStamp))
                 (ops.ofNat (nextTarget.timeStamp - lastTarget.timeStamp)))),
           ops.add lastTarget.locations.z
             (ops.mul (ops.sub nextTarget.locations.z lastTarget.locations.z)
               (ops.div (ops.ofNat (T - lastTarget.timeStamp))
                 (ops.ofNat (nextTarget.timeStamp - lastTarget.timeStamp))))⟩) := by
    rw [hscan]
    unfold targetPoint
    by_cases heq : lastTarget.timeStamp = T
    · have hint : interpolates lastTarget T = false := by simp [interpolates, heq]
      rw [hint, if_pos heq]
      rfl
    · have hint : interpolates lastTarget T = true := by simp [interpolates, heq]
      rw [hint, if_neg heq]
      simp only [if_true, hthis, htarget]
  obtain ⟨hnA, hvA⟩ := laws.ofNat_num (T - lastTarget.timeStamp) (by omega)
  obtain ⟨hnB, _⟩ := laws.ofNat_num (nextTarget.timeStamp - lastTarget.timeStamp) (by omega)
  have hmono := laws.ofNat_mono (T - lastTarget.timeStamp)
    (nextTarget.timeStamp - lastTarget.timeStamp) (by omega) (by omega)
  have hposB := laws.ofNat_pos (nextTarget.timeStamp - lastTarget.timeStamp)
    (by omega) (by omega)
  obtain ⟨hf1, hf2, hf3⟩ := laws.div_between _ _ hnA hnB hvA hmono hposB
  exact ⟨pre, lastTarget, nextTarget, post, h1, hscan, h3, h4, h5, by omega, by omega,
    hpos, hpoint, hf1, hf2, hf3⟩

/-- Witness for C17: target samples with timestamps 10, 20, 40 and the position timestamp
25, in the arithmetic `roundedOps`, whose conversion rounds. -/
theorem bracket_search_witness :
    ((⟨10, ⟨XFloat.fin 1, XFloat.fin 1, XFloat.fin 1, XFloat.fin 0⟩⟩ :
        FlyByCamera XFloat).timeStamp ≤ 25 ∧
      (∃ c, ((⟨10, ⟨XFloat.fin 1, XFloat.fin 1, XFloat.fin 1, XFloat.fin 0⟩⟩ :
          FlyByCamera XFloat) ::
          [⟨20, ⟨XFloat.fin 2, XFloat.fin 2, XFloat.fin 2, XFloat.fin 0⟩⟩,
           ⟨40, ⟨XFloat.fin 3, XFloat.fin 3, XFloat.fin 3, XFloat.fin 0⟩⟩]).getLast? = some c ∧
        25 < c.timeStamp)) ∧
    ∃ pre lastTarget nextTarget post,
      (⟨10, ⟨XFloat.fin 1, XFloat.fin 1, XFloat.fin 1, XFloat.fin 0⟩⟩ : FlyByCamera XFloat) ::
          [⟨20, ⟨XFloat.fin 2, XFloat.fin 2, XFloat.fin 2, XFloat.fin 0⟩⟩,
           ⟨40, ⟨XFloat.fin 3, XFloat.fin 3, XFloat.fin 3, XFloat.fin 0⟩⟩]
        = pre ++ lastTarget :: nextTarget :: post ∧
      findBracket 25
          (⟨10, ⟨XFloat.fin 1, XFloat.fin 1, XFloat.fin 1, XFloat.fin 0⟩⟩ : FlyByCamera XFloat)
          [⟨20, ⟨XFloat.fin 2, XFloat.fin 2, XFloat.fin 2, XFloat.fin 0⟩⟩,
           ⟨40, ⟨XFloat.fin 3, XFloat.fin 3, XFloat.fin 3, XFloat.fin 0⟩⟩]
        = (lastTarget, nextTarget) ∧
      lastTarget.timeStamp ≤ 25 ∧ 25 < nextTarget.timeStamp ∧
      0 < timeDiffTarget lastTarget nextTarget ∧
      XFloat.view.isNum (roundedOps.div (roundedOps.ofNat (25 - lastTarget.timeStamp))
        (roundedOps.ofNat (nextTarget.timeStamp - lastTarget.timeStamp))) ∧
      0 ≤ XFloat.view.val (roundedOps.div (roundedOps.ofNat (25 - lastTarget.timeStamp))
        (roundedOps.ofNat (nextTarget.timeStamp - lastTarget.timeStamp))) ∧
      XFloat.view.val (roundedOps.div (roundedOps.ofNat (25 - lastTarget.timeStamp))
        (roundedOps.ofNat (nextTarget.timeStamp - lastTarget.timeStamp))) ≤ 1 := by
  have hlo : (⟨10, ⟨XFloat.fin 1, XFloat.fin 1, XFloat.fin 1, XFloat.fin 0⟩⟩ :
      FlyByCamera XFloat).timeStamp ≤ 25 := by decide
  have hhi : ∃ c, ((⟨10, ⟨XFloat.fin 1, XFloat.fin 1, XFloat.fin 1, XFloat.fin 0⟩⟩ :
      FlyByCamera XFloat) ::
      [⟨20, ⟨XFloat.fin 2, XFloat.fin 2, XFloat.fin 2, XFloat.fin 0⟩⟩,
       ⟨40, ⟨XFloat.fin 3, XFloat.fin 3, XFloat.fin 3, XFloat.fin 0⟩⟩]).getLast? = some c ∧
      25 < c.timeStamp := ⟨_, rfl, by decide⟩
  have hu32 : ∀ c ∈ (⟨10, ⟨XFloat.fin 1, XFloat.fin 1, XFloat.fin 1, XFloat.fin 0⟩⟩ :
      FlyByCamera XFloat) ::
      [⟨20, ⟨XFloat.fin 2, XFloat.fin 2, XFloat.fin 2, XFloat.fin 0⟩⟩,
       ⟨40, ⟨XFloat.fin 3, XFloat.fin 3, XFloat.fin 3, XFloat.fin 0⟩⟩],
      c.timeStamp < 4294967296 := by
    intro c hc
    simp only [List.mem_cons, List.mem_singleton, List.not_mem_nil, or_false] at hc
    rcases hc with rfl | rfl | rfl <;> decide
  refine ⟨⟨hlo, hhi⟩, ?_⟩
  obtain ⟨pre, lastTarget, nextTarget, post, h1, h2, _, h4, h5, _, _, h8, _, h10, h11, h12⟩ :=
    bracket_search roundedOps XFloat.view roundedOps_laws _ _ 25 hlo hhi hu32
  exact ⟨pre, lastTarget, nextTarget, post, h1, h2, h4, h5, h8, h10, h11, h12⟩

/-- C18: for `buffSize < 2^32`, `readCamera` returns true exactly when both timestamp
descriptors pass their check (`offset + 8 ≤ buffSize`) and the declared keys of each
non-empty track fit (`offset + count * K ≤ buffSize`, the count being that of the timestamp
descriptor); a cursor that passes the key check does not wrap when advanced; and the count
fields of the two values descriptors do not influence the call. -/
theorem readCamera_success_condition {F : Type} (ops : FloatOps F) (K : Nat) (mem : Memory F)
    (cam : M2Camera F) (buffSize : Nat) (dbcentry : CinematicCameraEntry F) (store : Store F)
    (hbuf : buffSize < 4294967296) :
    ((readCamera ops K mem cam buffSize dbcentry store).ok = true ↔
      (cam.target_positions.timestamps.offset_elements + 8 ≤ buffSize ∧
       (cam.target_positions.timestamps.number = 0 ∨
        cam.target_positions.values.offset_elements
          + cam.target_positions.timestamps.number * K ≤ buffSize) ∧
       cam.positions.timestamps.offset_elements + 8 ≤ buffSize ∧
       (cam.positions.timestamps.number = 0 ∨
        cam.positions.values.offset_elements
          + cam.positions.timestamps.number * K ≤ buffSize))) ∧
    (∀ currPos, ¬ (currPos + K > buffSize) → (currPos + K) % 4294967296 = currPos + K) ∧
    (∀ a b,
      readCamera ops K mem
        ⟨⟨cam.positions.timestamps, ⟨a, cam.positions.values.offset_elements⟩⟩,
          cam.position_base,
          ⟨cam.target_positions.timestamps, ⟨b, cam.target_positions.values.offset_elements⟩⟩,
          cam.target_position_base⟩ buffSize dbcentry store
        = readCamera ops K mem cam buffSize dbcentry store) := by
  refine ⟨readCamera_ok_iff ops K mem cam buffSize dbcentry store hbuf, ?_, ?_⟩
  · intro currPos h
    exact Nat.mod_eq_of_lt (by omega)
  · intro a b
    rfl

/-- Witness for C18: a buffer of 1000 bytes. -/
theorem readCamera_success_condition_witness :
    (1000 < 4294967296) ∧
    ((readCamera ieeeOps 36 exMem exCam 1000 exEntry emptyStore).ok = true ↔
      (exCam.target_positions.timestamps.offset_elements + 8 ≤ 1000 ∧
       (exCam.target_positions.timestamps.number = 0 ∨
        exCam.target_positions.values.offset_elements
          + exCam.target_positions.timestamps.number * 36 ≤ 1000) ∧
       exCam.positions.timestamps.offset_elements + 8 ≤ 1000 ∧
       (exCam.positions.timestamps.number = 0 ∨
        exCam.positions.values.offset_elements
          + exCam.positions.timestamps.number * 36 ≤ 1000))) :=
  ⟨by decide,
    (readCamera_success_condition ieeeOps 36 exMem exCam 1000 exEntry emptyStore
      (by decide)).1⟩

/-! ## The file name -/

theorem matchesAt_iff (pat : List Char) :
    ∀ s : List Char, matchesAt pat s = true ↔ ∃ post, s = pat ++ post := by
  induction pat with
  | nil =>
    intro s
    simp [matchesAt]
  | cons p ps ih =>
    intro s
    cases s with
    | nil => simp [matchesAt]
    | cons c cs =>
      simp only [matchesAt, Bool.and_eq_true, beq_iff_eq, ih cs, List.cons_append,
        List.cons.injEq]
      constructor
      · rintro ⟨rfl, post, rfl⟩
        exact ⟨post, rfl, rfl⟩
      · rintro ⟨post, rfl, rfl⟩
        exact ⟨rfl, post, rfl⟩

theorem findSubstring_none (pat : List Char) :
    ∀ s : List Char, findSubstring pat s = none → ∀ pre post, s ≠ pre ++ pat ++ post := by
  intro s
  induction s with
  | nil =>
    intro h pre post he
    have hm : matchesAt pat [] = true := by
      rw [matchesAt_iff]
      have h1 : pre = [] ∧ pat = [] ∧ post = [] := by
        simpa [List.append_eq_nil, and_assoc] using he.symm
      exact ⟨[], by simp [h1.2.1]⟩
    simp [findSubstring, hm] at h
  | cons c cs ih =>
    intro h pre post he
    by_cases hm : matchesAt pat (c :: cs) = true
    · simp [findSubstring, hm] at h
    · simp only [findSubstring, hm, Bool.false_eq_true, if_false, Option.map_eq_none'] at h
      cases pre with
      | nil =>
        apply hm
        rw [matchesAt_iff]
        exact ⟨post, by simpa using he⟩
      | cons a pre1 =>
        simp only [List.cons_append, List.cons.injEq] at he
        exact ih h pre1 post he.2

theorem findSubstring_some (pat : List Char) :
    ∀ (s : List Char) (n : Nat), findSubstring pat s = some n →
      ∃ pre post, s = pre ++ pat ++ post ∧ pre.length = n ∧
        ∀ pre1 post1, s = pre1 ++ pat ++ post1 → n ≤ pre1.length := by
  intro s
  induction s with
  | nil =>
    intro n h
    by_cases hm : matchesAt pat [] = true
    · simp only [findSubstring, hm, if_true, Option.some.injEq] at h
      obtain ⟨post, hp⟩ := (matchesAt_iff pat []).mp hm
      exact ⟨[], post, by simpa using hp, by simpa using h, fun _ _ _ => by omega⟩
    · simp [findSubstring, hm] at h
  | cons c cs ih =>
    intro n h
    by_cases hm : matchesAt pat (c :: cs) = true
    · simp only [findSubstring, hm, if_true, Option.some.injEq] at h
      obtain ⟨post, hp⟩ := (matchesAt_iff pat (c :: cs)).mp hm
      exact ⟨[], post, by simpa using hp, by simpa using h, fun _ _ _ => by omega⟩
    · simp only [findSubstring, hm, Bool.false_eq_true, if_false, Option.map_eq_some'] at h
      obtain ⟨m, hfind, rfl⟩ := h
      obtain ⟨pre, post, he, hlen, hmin⟩ := ih m hfind
      refine ⟨c :: pre, post, by simp [he], by simp [hlen], ?_⟩
      intro pre1 post1 he1
      cases pre1 with
      | nil =>
        exfalso
        apply hm
        rw [matchesAt_iff]
        exact ⟨post1, by simpa using he1⟩
      | cons a pre2 =>
        simp only [List.cons_append, List.cons.injEq] at he1
        have := hmin pre2 post1 he1.2
        simp only [List.length_cons]
        omega

/-- C16: the name of the file opened is `dataPath ++ Model` with every backslash replaced by
`/`; if `.mdx` does not occur in it, nothing else is changed; otherwise the first occurrence
of `.mdx`, wherever it is, is replaced by `.m2` and everything before and after that
occurrence, later occurrences of `.mdx` included, is kept. -/
theorem resolveFilename_spec (dataPath Model : String) :
    ((∀ pre post, (dataPath.data ++ Model.data).map (fun c => if c = '\\' then '/' else c)
          ≠ pre ++ ['.', 'm', 'd', 'x'] ++ post) ∧
      resolveFilename dataPath Model
        = String.mk ((dataPath.data ++ Model.data).map fun c => if c = '\\' then '/' else c)) ∨
    ∃ pre post,
      (dataPath.data ++ Model.data).map (fun c => if c = '\\' then '/' else c)
        = pre ++ ['.', 'm', 'd', 'x'] ++ post ∧
      (∀ pre1 post1,
        (dataPath.data ++ Model.data).map (fun c => if c = '\\' then '/' else c)
          = pre1 ++ ['.', 'm', 'd', 'x'] ++ post1 → pre.length ≤ pre1.length) ∧
      resolveFilename dataPath Model = String.mk (pre ++ ['.', 'm', '2'] ++ post) := by
  have hpat : ".mdx".data = ['.', 'm', 'd', 'x'] := rfl
  have hrep : ".m2".data = ['.', 'm', '2'] := rfl
  unfold resolveFilename
  simp only [replaceSlashes, hpat, hrep]
  cases hfind : findSubstring ['.', 'm', 'd', 'x']
      ((dataPath.data ++ Model.data).map fun c => if c = '\\' then '/' else c) with
  | none =>
    left
    exact ⟨findSubstring_none _ _ hfind, rfl⟩
  | some n =>
    right
    obtain ⟨pre, post, he, hlen, hmin⟩ := findSubstring_some _ _ n hfind
    refine ⟨pre, post, he, ?_, ?_⟩
    · intro pre1 post1 he1
      rw [hlen]
      exact hmin pre1 post1 he1
    · have htake : List.take pre.length (pre ++ ['.', 'm', 'd', 'x'] ++ post) = pre := by
        rw [List.append_assoc]
        exact List.take_left _ _
      have hdrop : List.drop (pre.length + 4) (pre ++ ['.', 'm', 'd', 'x'] ++ post) = post := by
        rw [List.append_assoc, List.drop_append]
        rfl
      simp only [replaceAt]
      rw [he, ← hlen, htake, hdrop]

theorem resolveFilename_example :
    resolveFilename "/data/" "Cameras\\Fly.mdx\\By.mdx" = "/data/Cameras/Fly.m2/By.mdx" := by
  decide

/-! ## `LoadM2Cameras` -/

theorem signatureMismatch_iff (signature : List Nat) :
    signatureMismatch signature = false ↔ signature.take 4 = magicMD20 := by
  unfold signatureMismatch
  simp only [bne_eq_false_iff_eq]
  constructor
  · intro h
    have hlen : (signature.take 4).length ≤ 4 := by simp
    have hsplit := List.takeWhile_append_dropWhile (fun b => b != 0) (signature.take 4)
    rw [h] at hsplit
    have hnil : List.dropWhile (fun b => b != 0) (signature.take 4) = [] := by
      have hl := congrArg List.length hsplit
      simp only [List.length_append, magicMD20, List.length_cons, List.length_nil] at hl
      exact List.eq_nil_of_length_eq_zero (by omega)
    rw [hnil, List.append_nil] at hsplit
    exact hsplit.symm
  · intro h
    rw [h]
    decide

theorem castU32_of_lt (n : Nat) (h : n < 4294967296) : castU32 n = n :=
  Nat.mod_eq_of_lt h

theorem castU32_lt (n : Nat) : castU32 n < 4294967296 :=
  Nat.mod_lt _ (by decide)

theorem exEntry_filename : resolveFilename "/data/" exEntry.Model = "/data/Cameras/FlyBy.m2" := by
  decide

/-- C14, as stated, fails: a file of `2^32 + 100` bytes that starts with `MD21` is not
shorter than the header (`sizeof(M2Header)` taken as 324) and has the wrong magic, yet the
one error line written for it is of the size kind, not of the signature kind. -/
theorem LoadM2Cameras_missorts_huge_file :
    exFs exFileHugeBadMagic (resolveFilename "/data/" exEntry.Model)
      = some exFileHugeBadMagic ∧
    324 ≤ exFileHugeBadMagic.fileSize ∧
    exFileHugeBadMagic.signature.take 4 ≠ magicMD20 ∧
    (LoadM2Cameras ieeeOps 324 100 36 (exFs exFileHugeBadMagic) "/data/" [exEntry]
        emptyStore).errors
      = [Diagnostic.tooSmall "/data/Cameras/FlyBy.m2"] ∧
    (LoadM2Cameras ieeeOps 324 100 36 (exFs exFileHugeBadMagic) "/data/" [exEntry]
        emptyStore).errors
      ≠ [Diagnostic.badSignature "/data/Cameras/FlyBy.m2"] := by
  have hopen : exFs exFileHugeBadMagic (resolveFilename "/data/" exEntry.Model)
      = some exFileHugeBadMagic := by
    rw [exEntry_filename]
    simp [exFs]
  have hsz : castU32 exFileHugeBadMagic.fileSize < 324 := by decide
  have hrun : LoadM2Cameras ieeeOps 324 100 36 (exFs exFileHugeBadMagic) "/data/" [exEntry]
      emptyStore = ⟨fun _ => none, [Diagnostic.tooSmall "/data/Cameras/FlyBy.m2"]⟩ := by
    unfold LoadM2Cameras
    rw [List.foldl_cons, List.foldl_nil]
    unfold loadRecord
    have hopen2 : exFs exFileHugeBadMagic "/data/Cameras/FlyBy.m2" = some exFileHugeBadMagic := by simp [exFs]
    simp only [exEntry_filename, hopen2, hsz, if_true, List.nil_append]
  refine ⟨hopen, by decide, by decide, ?_, ?_⟩
  · rw [hrun]
  · rw [hrun]
    simp

/-- C14, amended: for a placement record whose file opens and is below `2^32` bytes,
processed after any records `pre`: if the file is shorter than `sizeof(M2Header)`, the store
is left as it was and exactly one error line, of the size kind, is added; if the file is not
shorter but does not start with `MD20`, the store is left as it was and exactly one error
line, of the signature kind, is added. -/
theorem LoadM2Cameras_rejects_damaged {F : Type} (ops : FloatOps F) (H C K : Nat)
    (fs : String → Option (M2File F)) (dataPath : String)
    (pre : List (CinematicCameraEntry F)) (e : CinematicCameraEntry F) (store : Store F)
    (file : M2File F) (hopen : fs (resolveFilename dataPath e.Model) = some file)
    (hsize : file.fileSize < 4294967296) :
    (file.fileSize < H →
      LoadM2Cameras ops H C K fs dataPath (pre ++ [e]) store
        = ⟨(LoadM2Cameras ops H C K fs dataPath pre store).store,
           (LoadM2Cameras ops H C K fs dataPath pre store).errors
             ++ [Diagnostic.tooSmall (resolveFilename dataPath e.Model)]⟩) ∧
    (H ≤ file.fileSize → file.signature.take 4 ≠ magicMD20 →
      LoadM2Cameras ops H C K fs dataPath (pre ++ [e]) store
        = ⟨(LoadM2Cameras ops H C K fs dataPath pre store).store,
           (LoadM2Cameras ops H C K fs dataPath pre store).errors
             ++ [Diagnostic.badSignature (resolveFilename dataPath e.Model)]⟩) := by
  have hcast : castU32 file.fileSize = file.fileSize := castU32_of_lt _ hsize
  constructor
  · intro hshort
    unfold LoadM2Cameras
    rw [List.foldl_append, List.foldl_cons, List.foldl_nil]
    unfold loadRecord
    simp only [hopen, hcast, hshort, if_true]
  · intro hlong hsig
    have hmis : signatureMismatch file.signature = true := by
      cases hm : signatureMismatch file.signature with
      | true => rfl
      | false => exact absurd ((signatureMismatch_iff _).mp hm) hsig
    have hnot : ¬ (file.fileSize < H) := by omega
    unfold LoadM2Cameras
    rw [List.foldl_append, List.foldl_cons, List.foldl_nil]
    unfold loadRecord
    simp only [hopen, hcast, hnot, if_false, hmis, if_true]

/-- Witness for C14: a file of 100 bytes and a file of 1000 bytes that starts with `MD21`,
with `sizeof(M2Header)` taken as 324. -/
theorem LoadM2Cameras_rejects_damaged_witness :
    ((exFs exFileShort (resolveFilename "/data/" exEntry.Model) = some exFileShort ∧
        exFileShort.fileSize < 324) ∧
      LoadM2Cameras ieeeOps 324 100 36 (exFs exFileShort) "/data/" ([] ++ [exEntry]) emptyStore
        = ⟨(LoadM2Cameras ieeeOps 324 100 36 (exFs exFileShort) "/data/" [] emptyStore).store,
           (LoadM2Cameras ieeeOps 324 100 36 (exFs exFileShort) "/data/" [] emptyStore).errors
             ++ [Diagnostic.tooSmall (resolveFilename "/data/" exEntry.Model)]⟩) ∧
    ((exFs exFileBadMagic (resolveFilename "/data/" exEntry.Model) = some exFileBadMagic ∧
        324 ≤ exFileBadMagic.fileSize ∧ exFileBadMagic.signature.take 4 ≠ magicMD20) ∧
      LoadM2Cameras ieeeOps 324 100 36 (exFs exFileBadMagic) "/data/" ([] ++ [exEntry])
          emptyStore
        = ⟨(LoadM2Cameras ieeeOps 324 100 36 (exFs exFileBadMagic) "/data/" []
              emptyStore).store,
           (LoadM2Cameras ieeeOps 324 100 36 (exFs exFileBadMagic) "/data/" []
              emptyStore).errors
             ++ [Diagnostic.badSignature (resolveFilename "/data/" exEntry.Model)]⟩) := by
  have hopen1 : exFs exFileShort (resolveFilename "/data/" exEntry.Model) = some exFileShort := by
    rw [exEntry_filename]
    simp [exFs]
  have hopen2 : exFs exFileBadMagic (resolveFilename "/data/" exEntry.Model)
      = some exFileBadMagic := by
    rw [exEntry_filename]
    simp [exFs]
  have hs1 : exFileShort.fileSize < 324 := by decide
  have hs2 : 324 ≤ exFileBadMagic.fileSize := by decide
  have hm2 : exFileBadMagic.signature.take 4 ≠ magicMD20 := by decide
  exact ⟨⟨⟨hopen1, hs1⟩,
      (LoadM2Cameras_rejects_damaged ieeeOps 324 100 36 (exFs exFileShort) "/data/" []
        exEntry emptyStore exFileShort hopen1 (by decide)).1 hs1⟩,
    ⟨⟨hopen2, hs2, hm2⟩,
      (LoadM2Cameras_rejects_damaged ieeeOps 324 100 36 (exFs exFileBadMagic) "/data/" []
        exEntry emptyStore exFileBadMagic hopen2 (by decide)).2 hs2 hm2⟩⟩

/-- C15 (the code departs from it): a file that opens, is not shorter than the header
(`sizeof(M2Header)` taken as 324) and starts with `MD20`, but on which reading the whole
file fails, is skipped without any error line; no entry is stored for its record. -/
theorem LoadM2Cameras_failed_read_is_silent :
    exFs exFileUnread (resolveFilename "/data/" exEntry.Model) = some exFileUnread ∧
    castU32 exFileUnread.fileSize ≥ 324 ∧
    signatureMismatch exFileUnread.signature = false ∧
    exFileUnread.readOk = false ∧
    (LoadM2Cameras ieeeOps 324 100 36 (exFs exFileUnread) "/data/" [exEntry]
      emptyStore).errors = [] ∧
    (LoadM2Cameras ieeeOps 324 100 36 (exFs exFileUnread) "/data/" [exEntry]
      emptyStore).store 7 = none := by
  have hopen : exFs exFileUnread (resolveFilename "/data/" exEntry.Model)
      = some exFileUnread := by
    rw [exEntry_filename]
    simp [exFs]
  have hsz : ¬ (castU32 exFileUnread.fileSize < 324) := by decide
  have hsig : signatureMismatch exFileUnread.signature = false := by decide
  have hrd : exFileUnread.readOk = false := rfl
  have hrun : LoadM2Cameras ieeeOps 324 100 36 (exFs exFileUnread) "/data/" [exEntry] emptyStore
      = ⟨fun _ => none, []⟩ := by
    unfold LoadM2Cameras
    rw [List.foldl_cons, List.foldl_nil]
    unfold loadRecord
    simp only [hopen, hsz, if_false, hsig, Bool.false_eq_true, hrd, Bool.not_false, if_true]
  refine ⟨hopen, by decide, hsig, hrd, ?_, ?_⟩
  · rw [hrun]
  · rw [hrun]

end M2Stores

namespace CharacterDatabaseCleaner

/-! ## `CheckUnique` -/

theorem rowLoop_found (column table : String) (check : Nat → Bool) :
    ∀ (rows : List Nat) (ss : String),
      rowLoop column table check rows (true, ss)
        = (true, (rows.filter fun id => !check id).foldl
            (fun acc id => acc ++ "," ++ toString id) ss) := by
  intro rows
  induction rows with
  | nil =>
    intro ss
    rfl
  | cons id rest ih =>
    intro ss
    cases hc : check id with
    | true => simp [rowLoop, checkRow, hc, ih]
    | false => simp [rowLoop, checkRow, hc, ih]

theorem rowLoop_fresh (column table : String) (check : Nat → Bool) :
    ∀ (rows : List Nat) (ss : String),
      ((rows.filter fun id => !check id) = [] →
        rowLoop column table check rows (false, ss) = (false, ss)) ∧
      (∀ id1 others, (rows.filter fun id => !check id) = id1 :: others →
        rowLoop column table check rows (false, ss)
          = (true, others.foldl (fun acc id => acc ++ "," ++ toString id)
              (ss ++ "DELETE FROM " ++ table ++ " WHERE " ++ column ++ " IN ("
                ++ toString id1))) := by
  intro rows
  induction rows with
  | nil =>
    intro ss
    simp [rowLoop]
  | cons id rest ih =>
    intro ss
    cases hc : check id with
    | true =>
      have h := ih ss
      simp only [List.filter_cons, hc, Bool.not_true, Bool.false_eq_true, if_false]
      simp only [rowLoop, checkRow, hc, Bool.not_true, Bool.false_eq_true, if_false]
      exact h
    | false =>
      simp only [List.filter_cons, hc, Bool.not_false, if_true]
      constructor
      · intro h
        simp at h
      · intro id1 others h
        simp only [List.cons.injEq] at h
        obtain ⟨rfl, rfl⟩ := h
        simp only [rowLoop, checkRow, hc, Bool.not_false, if_true]
        exact rowLoop_found column table check rest _

theorem intercalate_go_eq_foldl (sep : String) :
    ∀ (l : List String) (acc : String),
      String.intercalate.go acc sep l = l.foldl (fun a x => a ++ sep ++ x) acc := by
  intro l
  induction l with
  | nil =>
    intro acc
    rfl
  | cons x rest ih =>
    intro acc
    simp [String.intercalate.go, ih]

theorem append_foldl_comma (h : String) :
    ∀ (l : List Nat) (acc : String),
      h ++ l.foldl (fun a id => a ++ "," ++ toString id) acc
        = l.foldl (fun a id => a ++ "," ++ toString id) (h ++ acc) := by
  intro l
  induction l with
  | nil =>
    intro acc
    rfl
  | cons x rest ih =>
    intro acc
    simp only [List.foldl_cons]
    rw [ih]
    simp only [String.append_assoc]

/-- C20: for a non-null result with rows `first :: rest`, `CheckUnique` executes a statement
exactly when some id fails `check`; it then executes the one statement
`DELETE FROM <table> WHERE <column> IN (i1,...,ik)` whose list is the ids that fail `check`,
in result order, written in decimal; ids that pass `check` are not in the list. -/
theorem CheckUnique_deletes_orphans (column table : String) (check : Nat → Bool)
    (first : Nat) (rest : List Nat) :
    (((first :: rest).filter fun id => !check id) = [] →
      (CheckUnique column table check (some (first, rest))).executed = []) ∧
    (((first :: rest).filter fun id => !check id) ≠ [] →
      (CheckUnique column table check (some (first, rest))).executed
        = ["DELETE FROM " ++ table ++ " WHERE " ++ column ++ " IN ("
            ++ String.intercalate "," (((first :: rest).filter fun id => !check id).map toString)
            ++ ")"]) ∧
    ((CheckUnique column table check (some (first, rest))).executed ≠ [] ↔
      ∃ id ∈ first :: rest, check id = false) := by
  have hfresh := rowLoop_fresh column table check (first :: rest) ""
  have hnone : ((first :: rest).filter fun id => !check id) = [] →
      (CheckUnique column table check (some (first, rest))).executed = [] := by
    intro h
    simp [CheckUnique, hfresh.1 h]
  have hsome : ((first :: rest).filter fun id => !check id) ≠ [] →
      (CheckUnique column table check (some (first, rest))).executed
        = ["DELETE FROM " ++ table ++ " WHERE " ++ column ++ " IN ("
            ++ String.intercalate "," (((first :: rest).filter fun id => !check id).map toString)
            ++ ")"] := by
    intro h
    cases hf : ((first :: rest).filter fun id => !check id) with
    | nil => exact absurd hf h
    | cons id1 others =>
      have hrun := hfresh.2 id1 others hf
      simp only [CheckUnique, hrun, if_true, List.map_cons, String.intercalate,
        intercalate_go_eq_foldl, List.foldl_map]
      rw [append_foldl_comma]
      simp [String.append_assoc]
  refine ⟨hnone, hsome, ?_⟩
  constructor
  · intro hex
    by_contra hno
    apply hex
    apply hnone
    rw [List.filter_eq_nil_iff]
    intro id hid
    cases hc : check id with
    | true => simp
    | false => exact absurd ⟨id, hid, hc⟩ hno
  · rintro ⟨id, hid, hc⟩
    have hne : ((first :: rest).filter fun id => !check id) ≠ [] := by
      intro h
      rw [List.filter_eq_nil_iff] at h
      have := h id hid
      simp [hc] at this
    rw [hsome hne]
    simp

theorem CheckUnique_example :
    (CheckUnique "skill" "character_skills" (fun id => id == 7 || id == 9)
      (some (7, [8, 9, 10]))).executed
      = ["DELETE FROM character_skills WHERE skill IN (8,10)"] := by
  decide

end CharacterDatabaseCleaner
